import Mathlib

/-!
Verification development for the maze-exploration game in
`game_3d_enhanced.py` / `game_functions.py`.

The Python source is shallowly embedded:

* Machine floats that only feed comparisons and integer conversions are
  modelled as exact rationals (`ℚ`); Python `int(x)` (truncation towards
  zero) is modelled by `pyInt`.
* The `random` module is modelled by a tape of natural numbers (`RS`).
  Every call to `random.randint`, `random.randrange`, `random.random`,
  `random.choice`, `random.uniform` consumes tape entries in exactly the
  order the Python code makes those calls; `random.shuffle` consumes
  `len - 1` entries (CPython's Fisher-Yates loop).  Each primitive maps a
  tape entry onto the full set of outcomes the Python call can produce, so
  quantifying over all tapes covers every possible run and every concrete
  run corresponds to some tape.
* Python exceptions (`ValueError` from an empty `randrange`, the
  `AttributeError` raised by `MazeMap.add_rooms`, see below) are modelled
  by `Option`: `none` is a crashed run that produces no maze.
-/

/-- Random source: an infinite tape of naturals and a cursor. -/
structure RS where
  tape : Nat → Nat
  pos : Nat

/-- Consume one tape entry. -/
def RS.next (rs : RS) : Nat × RS := (rs.tape rs.pos, RS.mk rs.tape (rs.pos + 1))

/-- `random.randint(a, b)`: uniform integer in `[a, b]` (one draw). -/
def randint (a b : Nat) (rs : RS) : Nat × RS :=
  let (k, rs') := rs.next
  (a + k % (b + 1 - a), rs')

/-- `random.randrange(start, stop, step)` with positive `step`: a value
`start + step * i < stop`; raises `ValueError` (here: `none`) when the
range is empty. One draw. -/
def randrange (start stop step : Nat) (rs : RS) : Option (Nat × RS) :=
  if start < stop then
    let n := (stop - start + step - 1) / step
    let (k, rs') := rs.next
    some (start + step * (k % n), rs')
  else none

/-- A `random.random() < 0.3` / `< 0.1` style test only matters through a
digit-sized outcome; one draw, reduced mod 10, to be compared with the
threshold numerator. Both outcomes of each comparison are realisable. -/
def randDigit (rs : RS) : Nat × RS :=
  let (k, rs') := rs.next
  (k % 10, rs')

/-- `random.uniform(2.0, 4.0)` used for wall-height jitter: the value never
influences any claim; the call still consumes one draw, mapped into `[2, 4]`
as a rational. -/
def randUniform2to4 (rs : RS) : ℚ × RS :=
  let (k, rs') := rs.next
  (2 + (k % 3 : Nat), rs')

/-- One swap of CPython's `random.shuffle` Fisher-Yates loop:
`j = randbelow(i+1); x[i], x[j] = x[j], x[i]`. -/
def shuffleSwap (d : α) (p : List α × RS) (i : Nat) : List α × RS :=
  let (k, rs') := p.2.next
  let j := k % (i + 1)
  let l := p.1
  ((l.set i (l.getD j d)).set j (l.getD i d), rs')

/-- `random.shuffle(x)`: `for i in reversed(range(1, len(x))): ...`. -/
def pyShuffle (d : α) (l : List α) (rs : RS) : List α × RS :=
  ((List.range' 1 (l.length - 1)).reverse).foldl (shuffleSwap d) (l, rs)

/-- `random.choice(seq)`: one draw, an index below `len(seq)`. -/
def pyChoice (d : α) (l : List α) (rs : RS) : α × RS :=
  let (k, rs') := rs.next
  (l.getD (k % l.length) d, rs')

/-- Python `int(x)` on a float: truncation towards zero. -/
def pyInt (q : ℚ) : Int := if 0 ≤ q then ⌊q⌋ else -⌊-q⌋

/-! ## The maze grid

`MazeMap.maze` is a list of rows, indexed `maze[z][x]`;
cell tags: 0 = Wall, 1 = Corridor (carved skeleton), 2 = Room, 3 = Door. -/

/-- The grid: a list of `height` rows of `width` cells each. -/
abbrev Maze := List (List Nat)

/-- `maze[z][x]` (0, i.e. Wall, off the grid — all source reads are
bounds-checked first, so the default is never what a claim rests on). -/
def cellAt (m : Maze) (x z : Nat) : Nat := (m.getD z []).getD x 0

/-- Write `maze[z][x] = v` (no-op off the grid; all source writes are
bounds-checked first). -/
def setCell (m : Maze) (x z v : Nat) : Maze :=
  m.set z ((m.getD z []).set x v)

/-- Signed-coordinate read used by the generator's offset arithmetic. -/
def cellAtI (m : Maze) (x z : Int) : Nat :=
  if 0 ≤ x ∧ 0 ≤ z then cellAt m x.toNat z.toNat else 0

/-- Signed-coordinate bounds-checked write, mirroring the source pattern
`if 0 <= x < width and 0 <= z < height: maze[z][x] = v`. -/
def setCellI (w h : Nat) (m : Maze) (x z : Int) (v : Nat) : Maze :=
  if 0 ≤ x ∧ x < (w : Int) ∧ 0 ≤ z ∧ z < (h : Int) then
    setCell m x.toNat z.toNat v
  else m

/-- `maze[z][x] in [1, 2, 3]`: the walkable tags Corridor/Room/Door. -/
def walkable (v : Nat) : Bool := v == 1 || v == 2 || v == 3

/-- `MazeMap.__init__` lines 37-38: `width if width % 2 == 1 else width + 1`
(the effective grid dimension for a requested dimension). -/
def effDim (n : Nat) : Nat := if n % 2 = 1 then n else n + 1

/-! ## Player experience (`Player.gain_experience`, lines 702-712)

Only the fields the method touches are modelled. -/

/-- The `Player` progression state. -/
structure PlayerProg where
  experience : Nat
  level : Nat
  max_hp : Nat
  hp : Nat
  deriving DecidableEq

/-- `Player.gain_experience(amount)` (lines 702-712): add experience, then
level up (`+1 max_hp`, full heal) when `(experience // 100) + 1` exceeds
the current level; returns whether a level-up occurred. -/
def gain_experience (p : PlayerProg) (amount : Nat) : PlayerProg × Bool :=
  let exp2 := p.experience + amount
  let newLevel := exp2 / 100 + 1
  if p.level < newLevel then
    (PlayerProg.mk exp2 newLevel (p.max_hp + 1) (p.max_hp + 1), true)
  else
    (PlayerProg.mk exp2 p.level p.max_hp p.hp, false)

/-! ## Maze generation (`MazeMap.generate_maze`, lines 65-141)

Coordinates inside the generator are signed (`Int`) because the source
works with offsets like `-12` and `-3`; every write is bounds-checked as
in the source. -/

/-- The carving directions, source order (line 93). -/
def dirList : List (Int × Int) := [(0, 12), (12, 0), (0, -12), (-12, 0)]

/-- `range(-3, 4)`: the offsets of the 7-wide carving. -/
def offs7 : List Int := [-3, -2, -1, 0, 1, 2, 3]

/-- `12 + (n // 24) * 12`: the grid-aligned start coordinate (lines 78-79). -/
def startCoord (n : Nat) : Nat := 12 + (n / 24) * 12

/-- Apply a list of bounds-checked writes of one fixed tag. -/
def writeCells (w h v : Nat) (l : List (Int × Int)) (m : Maze) : Maze :=
  l.foldl (fun m p => setCellI w h m p.1 p.2 v) m

/-- The cells of a 7x7 open block around `(cx, cy)` (lines 82-85 and
120-124): `for dy in range(-3, 4): for dx in range(-3, 4): ...`. -/
def blockWrites (cx cy : Int) : List (Int × Int) :=
  offs7.flatMap (fun dy => offs7.map (fun dx => (cx + dx, cy + dy)))

/-- `dx // abs(dx) if dx != 0 else 0`. -/
def sgn (d : Int) : Int := if 0 < d then 1 else if d < 0 then -1 else 0

/-- The cells of the 7-wide corridor carved between `(cx, cy)` and
`(cx + dx, cy + dy)` (lines 106-118).  The source checks only the offset
axis against the grid bounds; the step axis always lies strictly between
two guard-checked coarse cells, so the extra check in `setCellI` never
fires. -/
def corridorWrites (cx cy dx dy : Int) : List (Int × Int) :=
  (List.range' 1 (dx.natAbs + dy.natAbs - 1)).flatMap (fun s =>
    let sx := cx + sgn dx * (s : Int)
    let sy := cy + sgn dy * (s : Int)
    if dx ≠ 0 then offs7.map (fun o => (sx, sy + o))
    else offs7.map (fun o => (sx + o, sy)))

/-- Lines 98-129: the first shuffled direction whose target cell is
in bounds (6-cell margin) and still a wall. -/
def findDir (w h : Nat) (m : Maze) (cx cy : Int) : List (Int × Int) → Option (Int × Int)
  | [] => none
  | d :: rest =>
    let nx := cx + d.1
    let ny := cy + d.2
    if 6 ≤ nx ∧ nx < (w : Int) - 6 ∧ 6 ≤ ny ∧ ny < (h : Int) - 6 ∧ cellAtI m nx ny = 0 then
      some d
    else findDir w h m cx cy rest

/-- The iterative backtracking loop (lines 89-133).  Each iteration either
pops the stack or pushes one freshly carved coarse cell, so the loop takes
at most `2*w*h + 2` iterations; the fuel argument is only that upper
bound and the empty-stack case is always reached first. -/
def carveLoop (w h : Nat) : Nat → Maze → List (Int × Int) → RS → Maze × RS
  | 0, m, _, rs => (m, rs)
  | _ + 1, m, [], rs => (m, rs)
  | fuel + 1, m, c :: stk, rs =>
    let pr := pyShuffle (0, 0) dirList rs
    match findDir w h m c.1 c.2 pr.1 with
    | none => carveLoop w h fuel m stk pr.2
    | some d =>
      let m1 := writeCells w h 1 (corridorWrites c.1 c.2 d.1 d.2) m
      let m2 := writeCells w h 1 (blockWrites (c.1 + d.1) (c.2 + d.2)) m1
      carveLoop w h fuel m2 ((c.1 + d.1, c.2 + d.2) :: c :: stk) pr.2

/-! ## Room overlay (`MazeMap.add_rooms`, lines 143-181) -/

/-- Lines 157-163: the number of Wall cells in the candidate footprint. -/
def roomWallCount (m : Maze) (rx ry rw rh : Nat) : Nat :=
  ((List.range' ry rh).flatMap (fun y => (List.range' rx rw).map (fun x => (x, y)))).countP
    (fun p => cellAt m p.1 p.2 == 0)

/-- Line 166: `wall_count > total_cells * 0.8`.  For the footprint sizes
the generator can draw (odd side lengths 15..25) the float product
`total * 0.8` rounds to exactly `4*total/5` whenever that is an integer,
so the float comparison coincides with the exact integer one. -/
def roomAccepted (m : Maze) (rx ry rw rh : Nat) : Bool :=
  decide (4 * (rw * rh) < 5 * roomWallCount m rx ry rw rh)

/-- One iteration of the room loop (lines 147-181): draw size and position
(`randrange` raising on an empty range), then test the footprint.  On
acceptance the source carves the interior (lines 168-170) and then calls
`self.rooms.append(...)` (line 173) — but `MazeMap.__init__` assigns
`self.rooms = []` only *after* `generate_maze()` returns (line 46), so the
append raises `AttributeError` and the run dies before
`connect_room_to_maze` is ever reached; the crashed run yields no maze
(`none`). -/
def addRoomAttempt (w h : Nat) (m : Maze) (rs : RS) : Option (Maze × RS) := do
  let (rw, rs1) ← randrange 15 26 2 rs
  let (rh, rs2) ← randrange 15 26 2 rs1
  let (rx, rs3) ← randrange 5 (w - rw - 5) 2 rs2
  let (ry, rs4) ← randrange 5 (h - rh - 5) 2 rs3
  if roomAccepted m rx ry rw rh then none else some (m, rs4)

/-- `MazeMap.add_rooms` (lines 143-181): `random.randint(8, 15)` candidate
rooms. -/
def addRooms (w h : Nat) (m : Maze) (rs : RS) : Option (Maze × RS) :=
  (List.range (randint 8 15 rs).1).foldlM
    (fun (p : Maze × RS) _ => addRoomAttempt w h p.1 p.2) (m, (randint 8 15 rs).2)

/-! ## Loop augmentation (`MazeMap.add_random_connections`, lines 225-248) -/

/-- The `elif` branch of lines 244-248: vertical connection test; the
`random.random()` draw happens only when both neighbour checks pass
(Python short-circuits `and`). -/
def vertTry (m : Maze) (rs : RS) (added x y : Nat) : Maze × RS × Nat :=
  if walkable (cellAt m x (y - 1)) && walkable (cellAt m x (y + 1)) then
    if (randDigit rs).1 < 3 then (setCell m x y 3, (randDigit rs).2, added + 1)
    else (m, (randDigit rs).2, added)
  else (m, rs, added)

/-- One iteration of lines 230-248: early-out when enough connections were
added (the source `break`), then sample a cell and try a horizontal, then
a vertical, connection. -/
def connStep (w h maxConn : Nat) (st : Maze × RS × Nat) : Option (Maze × RS × Nat) :=
  if maxConn ≤ st.2.2 then some st
  else do
    let q1 ← randrange 2 (w - 2) 1 st.2.1
    let q2 ← randrange 2 (h - 2) 1 q1.2
    let x := q1.1
    let y := q2.1
    let rs2 := q2.2
    let m := st.1
    let added := st.2.2
    if cellAt m x y = 0 then
      if walkable (cellAt m (x - 1) y) && walkable (cellAt m (x + 1) y) then
        if (randDigit rs2).1 < 3 then some (setCell m x y 3, (randDigit rs2).2, added + 1)
        else some (vertTry m (randDigit rs2).2 added x y)
      else some (vertTry m rs2 added x y)
    else some (m, rs2, added)

/-- `MazeMap.add_random_connections` (lines 225-248). -/
def addConns (w h : Nat) (m : Maze) (rs : RS) : Option (Maze × RS) := do
  let st ← (List.range ((randint 15 25 rs).1 * 3)).foldlM
    (fun st _ => connStep w h (randint 15 25 rs).1 st) (m, (randint 15 25 rs).2, 0)
  some (st.1, st.2.1)

/-! ## `MazeMap.generate_maze` (lines 65-141) -/

/-- The full generator: all-walls grid (the list comprehension of line 67
and the loop of lines 70-72 both write zeros), the 7x7 start block
(lines 78-85), the backtracking carve, the room overlay and the loop
augmentation.  `none` is a run killed by an exception. -/
def generateMaze (w h : Nat) (rs : RS) : Option (Maze × RS) :=
  let m0 : Maze := List.replicate h (List.replicate w 0)
  let sx : Int := startCoord w
  let sy : Int := startCoord h
  let m1 := writeCells w h 1 (blockWrites sx sy) m0
  let p := carveLoop w h (2 * w * h + 2) m1 [(sx, sy)] rs
  do
    let q ← addRooms w h p.1 p.2
    addConns w h q.1 q.2

/-- The grid built by `MazeMap.__init__(width, height)`: requested
dimensions are forced odd first (lines 37-38), then `generate_maze` runs. -/
def mazeMapMaze (width height : Nat) (rs : RS) : Option (Maze × RS) :=
  generateMaze (effDim width) (effDim height) rs

/-- The all-zeros random tape, a concrete run used as witness input. -/
def zRS : RS := RS.mk (fun _ => 0) 0

/-! ## Spawn selection (`Game3D.__init__` lines 1528-1597 and
`Game3D.regenerate_world` lines 1722-1779)

`Game3D` always builds `MazeMap()` with the default 81x81 size, so the
spawn logic below is used with `w = h = 81`. -/

/-- A room record as stored in `self.rooms` (line 173-178).  Because the
append crashes (see `addRoomAttempt`), a completed `MazeMap` always has
`rooms = []`; the search logic is still modelled over an arbitrary list. -/
structure RoomRec where
  x : Nat
  y : Nat
  width : Nat
  height : Nat
  center_x : Nat
  center_y : Nat

/-- Method 1 (lines 1534-1545 / 1732-1741): the first room whose centre is
inside the grid and walkable. -/
def roomSpawn (w h : Nat) (m : Maze) (rooms : List RoomRec) : Option (Nat × Nat) :=
  (rooms.find? (fun r =>
    decide (r.center_x < w) && decide (r.center_y < h) &&
    walkable (cellAt m r.center_x r.center_y))).map (fun r => (r.center_x, r.center_y))

/-- `range(-offset, offset + 1, 2)`: the stepped offsets of Method 2. -/
def offRange (off : Nat) : List Int :=
  (List.range (off + 1)).map (fun k => -(off : Int) + 2 * k)

/-- The candidate offsets of Method 2 (lines 1550-1565 / 1745-1759), in
loop order `offset`, then `dx`, then `dz` (the source `break`s out of all
three loops at the first hit, i.e. takes the first candidate in this
order). -/
def searchCands (maxOff : Nat) : List (Int × Int) :=
  (List.range' 1 (maxOff - 1)).flatMap (fun off =>
    (offRange off).flatMap (fun dx => (offRange off).map (fun dz => (dx, dz))))

/-- Method 2: widening square search around `(cx, cz)`. -/
def searchSpawn (w h : Nat) (m : Maze) (cx cz : Int) (maxOff : Nat) :
    Option (Int × Int) :=
  ((searchCands maxOff).find? (fun d =>
    decide (0 ≤ cx + d.1) && decide (cx + d.1 < (w : Int)) &&
    decide (0 ≤ cz + d.2) && decide (cz + d.2 < (h : Int)) &&
    walkable (cellAtI m (cx + d.1) (cz + d.2)))).map (fun d => (cx + d.1, cz + d.2))

/-- `range(start, stop, step)` over naturals. -/
def rangeStep (start stop step : Nat) : List Nat :=
  (List.range ((stop - start + step - 1) / step)).map (fun i => start + step * i)

/-- The cells visited by the Method-3 whole-grid scan
(`for z in range(1, h - 1, step): for x in range(1, w - 1, step)`,
lines 1570-1578 with step 3, lines 1763-1770 with step 2). -/
def scanCands (w h step : Nat) : List (Nat × Nat) :=
  (rangeStep 1 (h - 1) step).flatMap (fun z =>
    (rangeStep 1 (w - 1) step).map (fun x => (x, z)))

/-- Method 3: first walkable cell of the scan. -/
def scanSpawn (w h step : Nat) (m : Maze) : Option (Nat × Nat) :=
  (scanCands w h step).find? (fun p => walkable (cellAt m p.1 p.2))

/-- `range(-2, 3)`. -/
def offs5 : List Int := [-2, -1, 0, 1, 2]

/-- The bounds-guarded writes of Method 4 (lines 1584-1589): force a 5x5
Room block around the centre (`dx` outer loop, `dz` inner). -/
def forceWrites (cx cz : Int) : List (Int × Int) :=
  offs5.flatMap (fun dx => offs5.map (fun dz => (cx + dx, cz + dz)))

/-- `Game3D.__init__` spawn selection (lines 1528-1597): room centres,
then a widening search up to offset 29, then a step-3 grid scan, then the
forced 5x5 carve at the grid centre.  Returns the spawn cell and the maze
(mutated only by Method 4). -/
def spawnInit (w h : Nat) (m : Maze) (rooms : List RoomRec) : (Nat × Nat) × Maze :=
  match roomSpawn w h m rooms with
  | some p => (p, m)
  | none =>
    match searchSpawn w h m (w / 2 : Nat) (h / 2 : Nat) 30 with
    | some p => ((p.1.toNat, p.2.toNat), m)
    | none =>
      match scanSpawn w h 3 m with
      | some p => (p, m)
      | none => ((w / 2, h / 2), writeCells w h 2 (forceWrites (w / 2 : Nat) (h / 2 : Nat)) m)

/-- `Game3D.regenerate_world` spawn selection (lines 1722-1779): room
centres, then a widening search up to offset 19, then a step-2 grid scan;
there is no forced carve — on total failure the spawn stays at the grid
centre whatever that cell holds. -/
def spawnRegen (w h : Nat) (m : Maze) (rooms : List RoomRec) : Nat × Nat :=
  match roomSpawn w h m rooms with
  | some p => p
  | none =>
    match searchSpawn w h m (w / 2 : Nat) (h / 2 : Nat) 20 with
    | some p => (p.1.toNat, p.2.toNat)
    | none =>
      match scanSpawn w h 2 m with
      | some p => p
      | none => (w / 2, h / 2)

/-! ## Entity placement (`MazeMap.place_monsters` lines 380-424,
`MazeMap.place_treasures` lines 426-490) -/

/-- A monster entry; the emoji/description fields of
`game_functions.get_random_monster` are irrelevant to every claim and
omitted. -/
structure MonsterRec where
  name : String
  defeated : Bool
  health : Nat

/-- A treasure entry. -/
structure TreasureRec where
  opened : Bool
  contents : String

/-- The keys of `get_random_monster`'s dict, in insertion order. -/
def monsterNames : List String := ["sarkany", "troll", "boszorkany"]

/-- Lines 386-390: all walkable cells `(x, y)`, `y` (row) outer. -/
def validPositions (w h : Nat) (m : Maze) : List (Nat × Nat) :=
  (List.range' 1 (h - 2)).flatMap (fun y =>
    (List.range' 1 (w - 2)).filterMap (fun x =>
      if walkable (cellAt m x y) then some (x, y) else none))

/-- Lines 400-405: Manhattan distance below 3 to an already placed
monster. -/
def tooClose (x z : Nat) (acc : List ((Nat × Nat) × MonsterRec)) : Bool :=
  acc.any (fun q =>
    decide ((max x q.1.1 - min x q.1.1) + (max z q.1.2 - min z q.1.2) < 3))

/-- The placement loop of lines 395-422: stop at the target count, skip
cells too close to a placed monster, otherwise draw name (one
`random.choice`), a room health bonus, and the base health. -/
def placeMonstersGo (m : Maze) (numMonsters : Nat) :
    List (Nat × Nat) → Nat → List ((Nat × Nat) × MonsterRec) → RS →
    List ((Nat × Nat) × MonsterRec) × RS
  | [], _, acc, rs => (acc, rs)
  | p :: rest, placed, acc, rs =>
    if numMonsters ≤ placed then (acc, rs)
    else if tooClose p.1 p.2 acc then placeMonstersGo m numMonsters rest placed acc rs
    else
      let c1 := pyChoice "" monsterNames rs
      let b1 := if cellAt m p.1 p.2 = 2 then randint 1 2 c1.2 else (0, c1.2)
      let h1 := randint 2 4 b1.2
      placeMonstersGo m numMonsters rest (placed + 1)
        (acc ++ [((p.1, p.2), MonsterRec.mk c1.1 false (h1.1 + b1.1))]) h1.2

/-- `MazeMap.place_monsters` (lines 380-424): target count, candidate
collection, shuffle (`len - 1` draws), greedy placement. -/
def place_monsters (w h : Nat) (m : Maze) (rs : RS) :
    List ((Nat × Nat) × MonsterRec) × RS :=
  let n1 := randint 20 35 rs
  let s1 := pyShuffle (0, 0) (validPositions w h m) n1.2
  placeMonstersGo m n1.1 s1.1 0 [] s1.2

/-- Membership of a coordinate in a coordinate-keyed association list
(`(x, z) in dict`). -/
def hasKey (k : Nat × Nat) (l : List ((Nat × Nat) × α)) : Bool :=
  l.any (fun q => q.1 == k)

/-- Lines 434-438: room centres not holding a monster. -/
def roomCenterCands (rooms : List RoomRec)
    (monsters : List ((Nat × Nat) × MonsterRec)) : List (Nat × Nat × String) :=
  rooms.filterMap (fun r =>
    if hasKey (r.center_x, r.center_y) monsters then none
    else some (r.center_x, r.center_y, "room_center"))

/-- Lines 444-453: the number of walkable cells among the 8 neighbours. -/
def adjacentFloors (w h : Nat) (m : Maze) (x y : Nat) : Nat :=
  (([-1, 0, 1] : List Int).flatMap (fun dy =>
    ([-1, 0, 1] : List Int).map (fun dx => (dx, dy)))).countP (fun d =>
      !(d.1 == 0 && d.2 == 0) &&
      decide (0 ≤ (x : Int) + d.1) && decide ((x : Int) + d.1 < (w : Int)) &&
      decide (0 ≤ (y : Int) + d.2) && decide ((y : Int) + d.2 < (h : Int)) &&
      walkable (cellAtI m ((x : Int) + d.1) ((y : Int) + d.2)))

/-- Lines 441-457: corridor cells (tags 1 and 3) with at most 2 open
neighbours. -/
def deadEndCands (w h : Nat) (m : Maze) : List (Nat × Nat × String) :=
  (List.range' 1 (h - 2)).flatMap (fun y =>
    (List.range' 1 (w - 2)).filterMap (fun x =>
      if (cellAt m x y == 1 || cellAt m x y == 3) &&
          decide (adjacentFloors w h m x y ≤ 2) then
        some (x, y, "dead_end")
      else none))

/-- Lines 460-465: a sparse random sample of walkable, monster-free cells;
the `random.random() < 0.1` draw only happens when the two cheap checks
pass (Python short-circuits `and`). -/
def randomCands (w h : Nat) (m : Maze)
    (monsters : List ((Nat × Nat) × MonsterRec)) (rs : RS) :
    List (Nat × Nat × String) × RS :=
  ((List.range' 1 (h - 2)).flatMap (fun y =>
    (List.range' 1 (w - 2)).map (fun x => (x, y)))).foldl
    (fun (st : List (Nat × Nat × String) × RS) p =>
      if walkable (cellAt m p.1 p.2) && !hasKey p monsters then
        if (randDigit st.2).1 < 1 then (st.1 ++ [(p.1, p.2, "random")], (randDigit st.2).2)
        else (st.1, (randDigit st.2).2)
      else st)
    ([], rs)

/-- Lines 477-482: the loot table for each candidate kind. -/
def lootChoices (kind : String) : List String :=
  if kind == "room_center" then
    ["mega_health", "weapon_upgrade", "points", "mega_health"]
  else if kind == "dead_end" then ["health", "weapon_upgrade", "points"]
  else ["health", "points", "health"]

/-- The placement loop of lines 470-488: stop at the target count and
insert only at coordinates free of monsters and of already placed
treasures. -/
def placeTreasuresGo (numTreasures : Nat)
    (monsters : List ((Nat × Nat) × MonsterRec)) :
    List (Nat × Nat × String) → Nat → List ((Nat × Nat) × TreasureRec) → RS →
    List ((Nat × Nat) × TreasureRec) × RS
  | [], _, acc, rs => (acc, rs)
  | c :: rest, placed, acc, rs =>
    if numTreasures ≤ placed then (acc, rs)
    else if !hasKey (c.1, c.2.1) monsters && !hasKey (c.1, c.2.1) acc then
      placeTreasuresGo numTreasures monsters rest (placed + 1)
        (acc ++ [((c.1, c.2.1), TreasureRec.mk false (pyChoice "" (lootChoices c.2.2) rs).1)])
        (pyChoice "" (lootChoices c.2.2) rs).2
    else placeTreasuresGo numTreasures monsters rest placed acc rs

/-- `MazeMap.place_treasures` (lines 426-490): target count, the three
candidate pools in source order, shuffle, then guarded placement. -/
def place_treasures (w h : Nat) (m : Maze) (rooms : List RoomRec)
    (monsters : List ((Nat × Nat) × MonsterRec)) (rs : RS) :
    List ((Nat × Nat) × TreasureRec) × RS :=
  let n1 := randint 15 25 rs
  let cands0 := roomCenterCands rooms monsters ++ deadEndCands w h m
  let c1 := randomCands w h m monsters n1.2
  let s1 := pyShuffle (0, 0, "") (cands0 ++ c1.1) c1.2
  placeTreasuresGo n1.1 monsters s1.1 0 [] s1.2

/-! ## Player movement (`Player.can_move_to` lines 563-578 and the four
movement methods, lines 589-700)

Positions are exact rationals.  The trigonometric factors
`cos(radians(-rotation_y))` and `sin(radians(-rotation_y))` enter each
method only as two real numbers; they are taken here as parameters
`cosY sinY`, so quantifying over them covers every rotation. -/

/-- A player's ground-plane position. -/
structure Pos2 where
  x : ℚ
  z : ℚ
  deriving DecidableEq

/-- `Player.can_move_to` (lines 563-578): a 0.2-cell buffered bounds check,
then the destination cell (`int()` of each coordinate, necessarily
non-negative after the bounds check) must be walkable. -/
def can_move_to (m : Maze) (w h : Nat) (nx nz : ℚ) : Bool :=
  if 1/5 ≤ nx ∧ nx < (w : ℚ) - 1/5 ∧ 1/5 ≤ nz ∧ nz < (h : ℚ) - 1/5 then
    walkable (cellAt m (Int.toNat (pyInt nx)) (Int.toNat (pyInt nz)))
  else false

/-- The shared move-with-axis-sliding body of all four movement methods
(e.g. lines 600-616): try the full step, then x-only, then z-only, else
stay. -/
def slideMove (m : Maze) (w h : Nat) (p : Pos2) (dx dz : ℚ) : Pos2 :=
  let nx := p.x + dx
  let nz := p.z + dz
  if can_move_to m w h nx nz then Pos2.mk nx nz
  else if can_move_to m w h nx p.z then Pos2.mk nx p.z
  else if can_move_to m w h p.x nz then Pos2.mk p.x nz
  else p

/-- `Player.move_forward` (lines 589-616): direction `(sin_y, cos_y)`
scaled by `speed`. -/
def move_forward (m : Maze) (w h : Nat) (cosY sinY speed : ℚ) (p : Pos2) : Pos2 :=
  slideMove m w h p (sinY * speed) (cosY * speed)

/-- `Player.move_backward` (lines 618-644): direction `(-sin_y, -cos_y)`. -/
def move_backward (m : Maze) (w h : Nat) (cosY sinY speed : ℚ) (p : Pos2) : Pos2 :=
  slideMove m w h p (-sinY * speed) (-cosY * speed)

/-- `Player.strafe_left` (lines 646-672): direction `(-cos_y, sin_y)`. -/
def strafe_left (m : Maze) (w h : Nat) (cosY sinY speed : ℚ) (p : Pos2) : Pos2 :=
  slideMove m w h p (-cosY * speed) (sinY * speed)

/-- `Player.strafe_right` (lines 674-700): direction `(cos_y, -sin_y)`. -/
def strafe_right (m : Maze) (w h : Nat) (cosY sinY speed : ℚ) (p : Pos2) : Pos2 :=
  slideMove m w h p (cosY * speed) (-sinY * speed)

/-- A target point is "blocked": outside the buffered bounds, or its grid
cell is a Wall cell. -/
def blockedAt (m : Maze) (w h : Nat) (nx nz : ℚ) : Prop :=
  ¬(1/5 ≤ nx ∧ nx < (w : ℚ) - 1/5 ∧ 1/5 ≤ nz ∧ nz < (h : ℚ) - 1/5) ∨
    cellAt m (Int.toNat (pyInt nx)) (Int.toNat (pyInt nz)) = 0

instance (m : Maze) (w h : Nat) (nx nz : ℚ) : Decidable (blockedAt m w h nx nz) := by
  unfold blockedAt; infer_instance

/-! ## Projection (`Camera.project_3d_to_2d`, lines 720-752)

The four trigonometric factors and `tan(radians(fov / 2))` enter the
source only as real numbers; they are parameters `cosY sinY cosX sinX
fovFactor` here, so quantifying over them covers every rotation pair and
field of view. -/

/-- A world-space point (`Vector3D`). -/
structure Vec3 where
  x : ℚ
  y : ℚ
  z : ℚ

/-- `Camera.project_3d_to_2d` (lines 720-752): translate, rotate by yaw
then pitch, reject at the near plane (`final_z <= 0.001`), then the
perspective divide with the Y axis flipped and `int()` pixel
truncation. -/
def project_3d_to_2d (cosY sinY cosX sinX fovFactor : ℚ) (point cam : Vec3)
    (screenW screenH : Nat) : Option (Int × Int × ℚ) :=
  let relX := point.x - cam.x
  let relY := point.y - cam.y
  let relZ := point.z - cam.z
  let rotatedX := relX * cosY - relZ * sinY
  let rotatedZ := relX * sinY + relZ * cosY
  let finalY := relY * cosX - rotatedZ * sinX
  let finalZ := relY * sinX + rotatedZ * cosX
  if finalZ ≤ 1/1000 then none
  else
    let screenX := rotatedX / (finalZ * fovFactor) * ((screenW : ℚ) / 2) + (screenW : ℚ) / 2
    let screenY := -finalY / (finalZ * fovFactor) * ((screenH : ℚ) / 2) + (screenH : ℚ) / 2
    some (pyInt screenX, pyInt screenY, finalZ)

/-! ## The renderer's per-quad vertex filtering
(`Renderer.render_maze_walls` lines 1067-1100,
`Renderer.render_ground_plane` lines 1146-1171)

Only the geometry filtering is modelled; colours and the final
`pygame.draw.polygon` calls (wrapped in `try/except`) consume the emitted
quads unchanged. -/

/-- Lines 1072-1085: one wall-quad vertex — keep it when it projects and
passes the near-plane re-check, clamping to the extended screen bounds. -/
def wallVertexScreen (cosY sinY cosX sinX fovFactor : ℚ) (cam : Vec3)
    (screenW screenH : Nat) (v : Vec3) : Option ((Int × Int) × ℚ) :=
  match project_3d_to_2d cosY sinY cosX sinX fovFactor v cam screenW screenH with
  | none => none
  | some s =>
    if 1/1000 < s.2.2 then
      some ((max (-200) (min ((screenW : Int) + 200) s.1),
             max (-200) (min ((screenH : Int) + 200) s.2.1)), s.2.2)
    else none

/-- Lines 1087-1100: the wall quad is emitted for drawing when **at least
2** of its 4 corners survived the vertex filter; the recorded average
depth divides by 4 regardless of how many corners survived. -/
def renderWallQuad (cosY sinY cosX sinX fovFactor : ℚ) (cam : Vec3)
    (screenW screenH : Nat) (corners : List Vec3) :
    Option (List (Int × Int) × ℚ) :=
  let kept := corners.filterMap (wallVertexScreen cosY sinY cosX sinX fovFactor cam screenW screenH)
  if 2 ≤ kept.length then
    some (kept.map (fun q => q.1), (kept.map (fun q => q.2)).foldl (· + ·) 0 / 4)
  else none

/-- Lines 1151-1159: one floor-quad corner — keep it when it projects with
depth in the extended range `(0.001, 120)`. -/
def floorCornerScreen (cosY sinY cosX sinX fovFactor : ℚ) (cam : Vec3)
    (screenW screenH : Nat) (v : Vec3) : Option ((Int × Int) × ℚ) :=
  match project_3d_to_2d cosY sinY cosX sinX fovFactor v cam screenW screenH with
  | none => none
  | some s =>
    if 1/1000 < s.2.2 ∧ s.2.2 < 120 then some ((s.1, s.2.1), s.2.2) else none

/-- Lines 1161-1171: the floor quad is emitted only when **all 4** corners
survived and the average depth is below 80. -/
def renderFloorQuad (cosY sinY cosX sinX fovFactor : ℚ) (cam : Vec3)
    (screenW screenH : Nat) (corners : List Vec3) :
    Option (List (Int × Int) × ℚ) :=
  let kept := corners.filterMap (floorCornerScreen cosY sinY cosX sinX fovFactor cam screenW screenH)
  if kept.length = 4 then
    let avg := (kept.map (fun q => q.2)).foldl (· + ·) 0 / 4
    if avg < 80 then some (kept.map (fun q => q.1), avg) else none
  else none

/-! ## Helper predicates used by the claim statements -/

/-- The cell tag under the spawn coordinate computed by `Game3D.__init__`
(in the maze as possibly repaired by Method 4). -/
def spawnCellInit (w h : Nat) (m : Maze) (rooms : List RoomRec) : Nat :=
  let r := spawnInit w h m rooms
  cellAt r.2 r.1.1 r.1.2

/-- The cell tag under the spawn coordinate computed by
`Game3D.regenerate_world`. -/
def spawnCellRegen (w h : Nat) (m : Maze) (rooms : List RoomRec) : Nat :=
  cellAt m (spawnRegen w h m rooms).1 (spawnRegen w h m rooms).2

/-- Every cell of the outer border carries the Wall tag. -/
def borderAllWall (w h : Nat) (m : Maze) : Bool :=
  ((List.range w).all (fun x => cellAt m x 0 == 0 && cellAt m x (h - 1) == 0)) &&
  ((List.range h).all (fun z => cellAt m 0 z == 0 && cellAt m (w - 1) z == 0))

/-- No treasure key occurs among the monster keys. -/
def keysDisjoint (ts : List ((Nat × Nat) × TreasureRec))
    (ms : List ((Nat × Nat) × MonsterRec)) : Bool :=
  ts.all (fun t => !hasKey t.1 ms)

/-- The hypothesis of the collision claim: for one movement direction
`(dx, dz)`, the direct target, the x-only slide target and the z-only
slide target are all blocked. -/
def slideBlocked (m : Maze) (w h : Nat) (p : Pos2) (dx dz : ℚ) : Prop :=
  blockedAt m w h (p.x + dx) (p.z + dz) ∧ blockedAt m w h (p.x + dx) p.z ∧
    blockedAt m w h p.x (p.z + dz)

/-! ## List-level helper lemmas -/

lemma getD_set (l : List α) (i j : Nat) (a d : α) :
    (l.set i a).getD j d = if i = j ∧ j < l.length then a else l.getD j d := by
  induction l generalizing i j with
  | nil => simp [List.set]
  | cons b t ih =>
    cases i with
    | zero => cases j <;> simp [List.set, List.getD]
    | succ i' =>
      cases j with
      | zero => simp [List.set, List.getD]
      | succ j' =>
        simp only [List.set, List.getD_cons_succ, List.length_cons, ih i' j']
        by_cases hij : i' = j' <;> simp [hij, Nat.succ_lt_succ_iff]

lemma getD_replicate (n i : Nat) (a d : α) :
    (List.replicate n a).getD i d = if i < n then a else d := by
  induction n generalizing i with
  | zero => simp
  | succ n' ih =>
    cases i with
    | zero => simp [List.replicate]
    | succ i' =>
      rw [List.replicate, List.getD_cons_succ, ih i']
      simp [Nat.succ_lt_succ_iff]

lemma mem_of_mem_set (l : List α) (i : Nat) (a b : α) (hb : b ∈ l.set i a) :
    b = a ∨ b ∈ l := by
  induction l generalizing i with
  | nil => simp [List.set] at hb
  | cons c t ih =>
    cases i with
    | zero =>
      rcases List.mem_cons.mp hb with h | h
      · exact Or.inl h
      · exact Or.inr (List.mem_cons_of_mem _ h)
    | succ i' =>
      rcases List.mem_cons.mp hb with h | h
      · exact Or.inr (h ▸ List.mem_cons_self _ _)
      · rcases ih i' h with h' | h'
        · exact Or.inl h'
        · exact Or.inr (List.mem_cons_of_mem _ h')

lemma getD_mem_or_default (l : List α) (i : Nat) (d : α) :
    l.getD i d ∈ l ∨ l.getD i d = d := by
  induction l generalizing i with
  | nil => simp
  | cons c t ih =>
    cases i with
    | zero => exact Or.inl (List.mem_cons_self _ _)
    | succ i' =>
      rcases ih i' with h | h
      · exact Or.inl (List.mem_cons_of_mem _ (by simpa using h))
      · exact Or.inr (by simpa using h)

lemma length_filterMap_le (f : α → Option β) (l : List α) :
    (l.filterMap f).length ≤ l.length := by
  induction l with
  | nil => simp
  | cons a t ih =>
    cases hfa : f a <;> simp [List.filterMap_cons, hfa] <;> omega

lemma filterMap_length_eq_all_isSome (f : α → Option β) (l : List α)
    (hlen : (l.filterMap f).length = l.length) :
    ∀ a ∈ l, (f a).isSome = true := by
  induction l with
  | nil => simp
  | cons a t ih =>
    intro b hb
    cases hfa : f a with
    | none =>
      exfalso
      have := length_filterMap_le f t
      simp [List.filterMap_cons, hfa] at hlen
      omega
    | some c =>
      rcases List.mem_cons.mp hb with h | h
      · simp [h, hfa]
      · have : (t.filterMap f).length = t.length := by
          simpa [List.filterMap_cons, hfa] using hlen
        exact ih this b h

/-! ## Grid-level helper lemmas -/

/-- The grid has `h` rows all of length `w`. -/
def mazeWF (w h : Nat) (m : Maze) : Prop :=
  m.length = h ∧ ∀ z, z < h → (m.getD z []).length = w

lemma cellAt_setCell (m : Maze) (x z x' z' v : Nat) :
    cellAt (setCell m x' z' v) x z =
      if x' = x ∧ z' = z ∧ z < m.length ∧ x < (m.getD z []).length then v
      else cellAt m x z := by
  unfold cellAt setCell
  rw [getD_set]
  by_cases hz : z' = z
  · subst hz
    by_cases hzl : z' < m.length
    · rw [if_pos ⟨rfl, hzl⟩, getD_set]
      by_cases hx : x' = x
      · subst hx
        by_cases hxl : x' < (m.getD z' []).length
        · rw [if_pos ⟨rfl, hxl⟩, if_pos ⟨rfl, rfl, hzl, hxl⟩]
        · rw [if_neg (fun hc => hxl hc.2), if_neg (fun hc => hxl hc.2.2.2)]
      · rw [if_neg (fun hc => hx hc.1), if_neg (fun hc => hx hc.1)]
    · rw [if_neg (fun hc => hzl hc.2), if_neg (fun hc => hzl hc.2.2.1)]
  · rw [if_neg (fun hc => hz hc.1), if_neg (fun hc => hz hc.2.1)]

lemma mazeWF_setCell (w h : Nat) (m : Maze) (x z v : Nat) (hwf : mazeWF w h m) :
    mazeWF w h (setCell m x z v) := by
  obtain ⟨hlen, hrow⟩ := hwf
  constructor
  · simpa [setCell] using hlen
  · intro z' hz'
    unfold setCell
    rw [getD_set]
    split
    · next hcond =>
      rw [List.length_set, hcond.1]
      exact hrow z' hz'
    · exact hrow z' hz'

lemma mazeWF_setCellI (w h : Nat) (m : Maze) (a b : Int) (v : Nat)
    (hwf : mazeWF w h m) : mazeWF w h (setCellI w h m a b v) := by
  unfold setCellI
  split
  · exact mazeWF_setCell w h m _ _ v hwf
  · exact hwf

lemma mazeWF_writeCells (w h v : Nat) (l : List (Int × Int)) (m : Maze)
    (hwf : mazeWF w h m) : mazeWF w h (writeCells w h v l m) := by
  induction l generalizing m with
  | nil => simpa [writeCells] using hwf
  | cons p t ih =>
    simp only [writeCells, List.foldl_cons]
    exact ih _ (mazeWF_setCellI w h m p.1 p.2 v hwf)

lemma mazeWF_replicate (w h : Nat) :
    mazeWF w h (List.replicate h (List.replicate w 0)) := by
  constructor
  · simp
  · intro z hz
    rw [getD_replicate, if_pos hz, List.length_replicate]

/-- A write of tag `v` anywhere keeps a cell that already holds `v`. -/
lemma cellAt_setCellI_keep (w h : Nat) (m : Maze) (a b : Int) (v : Nat)
    (x z : Nat) (hv : cellAt m x z = v) :
    cellAt (setCellI w h m a b v) x z = v := by
  unfold setCellI
  split
  · rw [cellAt_setCell]; split <;> simp [hv]
  · exact hv

lemma cellAt_writeCells_keep (w h v : Nat) (l : List (Int × Int)) (m : Maze)
    (x z : Nat) (hv : cellAt m x z = v) :
    cellAt (writeCells w h v l m) x z = v := by
  induction l generalizing m with
  | nil => simpa [writeCells] using hv
  | cons p t ih =>
    simp only [writeCells, List.foldl_cons]
    exact ih _ (cellAt_setCellI_keep w h m p.1 p.2 v x z hv)

/-- A guarded write at the cell itself takes effect on a well-formed grid. -/
lemma cellAt_setCellI_self (w h : Nat) (m : Maze) (v : Nat) (x z : Nat)
    (hwf : mazeWF w h m) (hx : x < w) (hz : z < h) :
    cellAt (setCellI w h m (x : Int) (z : Int) v) x z = v := by
  unfold setCellI
  rw [if_pos ⟨Int.ofNat_nonneg x, by exact_mod_cast hx, Int.ofNat_nonneg z,
      by exact_mod_cast hz⟩]
  have hxx : ((x : Int)).toNat = x := Int.toNat_ofNat x
  have hzz : ((z : Int)).toNat = z := Int.toNat_ofNat z
  rw [hxx, hzz, cellAt_setCell,
    if_pos ⟨rfl, rfl, hwf.1 ▸ hz, by rw [hwf.2 z hz]; exact hx⟩]

/-- Writing a whole list of cells with tag `v`, one of which is `(x, z)`,
leaves tag `v` at `(x, z)`. -/
lemma cellAt_writeCells_mem (w h v : Nat) (l : List (Int × Int)) (m : Maze)
    (x z : Nat) (hwf : mazeWF w h m) (hx : x < w) (hz : z < h)
    (hmem : ((x : Int), (z : Int)) ∈ l) :
    cellAt (writeCells w h v l m) x z = v := by
  induction l generalizing m with
  | nil => simp at hmem
  | cons p t ih =>
    simp only [writeCells, List.foldl_cons]
    rcases List.mem_cons.mp hmem with hp | hp
    · have hself : cellAt (setCellI w h m p.1 p.2 v) x z = v := by
        rw [← hp]
        exact cellAt_setCellI_self w h m v x z hwf hx hz
      exact cellAt_writeCells_keep w h v t _ x z hself
    · exact ih _ (mazeWF_setCellI w h m p.1 p.2 v hwf) hp

/-! ## Preservation lemmas along the generation pipeline -/

lemma foldlM_option_pres {β γ : Type} (f : β → γ → Option β) (P : β → Prop)
    (hstep : ∀ a c b, f a c = some b → P a → P b) :
    ∀ (l : List γ) (a b : β), l.foldlM f a = some b → P a → P b := by
  intro l
  induction l with
  | nil =>
    intro a b hfold hP
    simp only [List.foldlM_nil, Option.pure_def, Option.some.injEq] at hfold
    exact hfold ▸ hP
  | cons c t ih =>
    intro a b hfold hP
    simp only [List.foldlM_cons] at hfold
    cases hfc : f a c with
    | none => rw [hfc] at hfold; simp at hfold
    | some a' =>
      rw [hfc] at hfold
      simp only [Option.bind_eq_bind, Option.some_bind] at hfold
      exact ih a' b hfold (hstep a c a' hfc hP)

lemma carveLoop_keep (w h : Nat) (x z : Nat) :
    ∀ (fuel : Nat) (m : Maze) (stk : List (Int × Int)) (rs : RS),
      cellAt m x z = 1 → cellAt (carveLoop w h fuel m stk rs).1 x z = 1 := by
  intro fuel
  induction fuel with
  | zero => intro m stk rs h1; simpa [carveLoop] using h1
  | succ f ih =>
    intro m stk rs h1
    cases stk with
    | nil => simpa [carveLoop] using h1
    | cons c t =>
      show cellAt (match findDir w h m c.1 c.2 (pyShuffle (0, 0) dirList rs).1 with
        | none => carveLoop w h f m t (pyShuffle (0, 0) dirList rs).2
        | some d => carveLoop w h f
            (writeCells w h 1 (blockWrites (c.1 + d.1) (c.2 + d.2))
              (writeCells w h 1 (corridorWrites c.1 c.2 d.1 d.2) m))
            ((c.1 + d.1, c.2 + d.2) :: c :: t) (pyShuffle (0, 0) dirList rs).2).1 x z = 1
      cases findDir w h m c.1 c.2 (pyShuffle (0, 0) dirList rs).1 with
      | none => exact ih m t _ h1
      | some d =>
        exact ih _ _ _ (cellAt_writeCells_keep w h 1 _ _ x z
          (cellAt_writeCells_keep w h 1 _ _ x z h1))

lemma carveLoop_wf (w h : Nat) :
    ∀ (fuel : Nat) (m : Maze) (stk : List (Int × Int)) (rs : RS),
      mazeWF w h m → mazeWF w h (carveLoop w h fuel m stk rs).1 := by
  intro fuel
  induction fuel with
  | zero => intro m stk rs hwf; simpa [carveLoop] using hwf
  | succ f ih =>
    intro m stk rs hwf
    cases stk with
    | nil => simpa [carveLoop] using hwf
    | cons c t =>
      show mazeWF w h (match findDir w h m c.1 c.2 (pyShuffle (0, 0) dirList rs).1 with
        | none => carveLoop w h f m t (pyShuffle (0, 0) dirList rs).2
        | some d => carveLoop w h f
            (writeCells w h 1 (blockWrites (c.1 + d.1) (c.2 + d.2))
              (writeCells w h 1 (corridorWrites c.1 c.2 d.1 d.2) m))
            ((c.1 + d.1, c.2 + d.2) :: c :: t) (pyShuffle (0, 0) dirList rs).2).1
      cases findDir w h m c.1 c.2 (pyShuffle (0, 0) dirList rs).1 with
      | none => exact ih m t _ hwf
      | some d =>
        exact ih _ _ _ (mazeWF_writeCells w h 1 _ _
          (mazeWF_writeCells w h 1 _ _ hwf))

lemma addRoomAttempt_unchanged (w h : Nat) (m : Maze) (rs : RS)
    (p : Maze × RS) (hsome : addRoomAttempt w h m rs = some p) : p.1 = m := by
  unfold addRoomAttempt at hsome
  cases h1 : randrange 15 26 2 rs with
  | none => rw [h1] at hsome; simp at hsome
  | some q1 =>
    rw [h1] at hsome
    simp only [Option.bind_eq_bind, Option.some_bind] at hsome
    cases h2 : randrange 15 26 2 q1.2 with
    | none => rw [h2] at hsome; simp at hsome
    | some q2 =>
      rw [h2] at hsome
      simp only [Option.bind_eq_bind, Option.some_bind] at hsome
      cases h3 : randrange 5 (w - q1.1 - 5) 2 q2.2 with
      | none => rw [h3] at hsome; simp at hsome
      | some q3 =>
        rw [h3] at hsome
        simp only [Option.bind_eq_bind, Option.some_bind] at hsome
        cases h4 : randrange 5 (h - q2.1 - 5) 2 q3.2 with
        | none => rw [h4] at hsome; simp at hsome
        | some q4 =>
          rw [h4] at hsome
          simp only [Option.bind_eq_bind, Option.some_bind] at hsome
          split at hsome
          · simp at hsome
          · simp only [Option.some.injEq] at hsome
            subst hsome
            rfl

lemma addRooms_unchanged (w h : Nat) (m : Maze) (rs : RS)
    (p : Maze × RS) (hsome : addRooms w h m rs = some p) : p.1 = m := by
  unfold addRooms at hsome
  exact foldlM_option_pres _ (fun q => q.1 = m)
    (fun a c b hab ha => by
      have hba := addRoomAttempt_unchanged w h a.1 a.2 b hab
      show b.1 = m
      rw [hba]
      exact ha)
    (List.range (randint 8 15 rs).1) (m, (randint 8 15 rs).2) p hsome rfl

/-- A `setCell` write of any tag guarded by "the written cell currently
holds tag 0" keeps every cell holding tag 1. -/
lemma cellAt_setCell_guard_zero (m : Maze) (a b v : Nat) (x z : Nat)
    (hz : cellAt m a b = 0) (h1 : cellAt m x z = 1) :
    cellAt (setCell m a b v) x z = 1 := by
  rw [cellAt_setCell]
  split
  · next hc =>
    exfalso
    rw [hc.1, hc.2.1, h1] at hz
    simp at hz
  · exact h1

lemma vertTry_keep (m : Maze) (rs : RS) (added x y : Nat) (tx tz : Nat)
    (hz : cellAt m x y = 0) (h1 : cellAt m tx tz = 1) :
    cellAt (vertTry m rs added x y).1 tx tz = 1 := by
  unfold vertTry
  split
  · split
    · exact cellAt_setCell_guard_zero m x y 3 tx tz hz h1
    · exact h1
  · exact h1

lemma vertTry_wf (w h : Nat) (m : Maze) (rs : RS) (added x y : Nat)
    (hwf : mazeWF w h m) : mazeWF w h (vertTry m rs added x y).1 := by
  unfold vertTry
  split
  · split
    · exact mazeWF_setCell w h m x y 3 hwf
    · exact hwf
  · exact hwf

lemma connStep_keep (w h mc : Nat) (st st' : Maze × RS × Nat) (tx tz : Nat)
    (hsome : connStep w h mc st = some st') (h1 : cellAt st.1 tx tz = 1) :
    cellAt st'.1 tx tz = 1 := by
  unfold connStep at hsome
  split at hsome
  · rw [Option.some_inj] at hsome
    rw [← hsome]
    exact h1
  · cases hx : randrange 2 (w - 2) 1 st.2.1 with
    | none => rw [hx] at hsome; simp at hsome
    | some q1 =>
      rw [hx] at hsome
      simp only [Option.bind_eq_bind, Option.some_bind] at hsome
      cases hy : randrange 2 (h - 2) 1 q1.2 with
      | none => rw [hy] at hsome; simp at hsome
      | some q2 =>
        rw [hy] at hsome
        simp only [Option.bind_eq_bind, Option.some_bind] at hsome
        split at hsome
        · next hz0 =>
          split at hsome
          · split at hsome
            · rw [Option.some_inj] at hsome
              rw [← hsome]
              exact cellAt_setCell_guard_zero st.1 q1.1 q2.1 3 tx tz hz0 h1
            · rw [Option.some_inj] at hsome
              rw [← hsome]
              exact vertTry_keep st.1 _ st.2.2 q1.1 q2.1 tx tz hz0 h1
          · rw [Option.some_inj] at hsome
            rw [← hsome]
            exact vertTry_keep st.1 _ st.2.2 q1.1 q2.1 tx tz hz0 h1
        · rw [Option.some_inj] at hsome
          rw [← hsome]
          exact h1

lemma connStep_wf (w h mc : Nat) (st st' : Maze × RS × Nat)
    (hsome : connStep w h mc st = some st') (hwf : mazeWF w h st.1) :
    mazeWF w h st'.1 := by
  unfold connStep at hsome
  split at hsome
  · rw [Option.some_inj] at hsome
    rw [← hsome]
    exact hwf
  · cases hx : randrange 2 (w - 2) 1 st.2.1 with
    | none => rw [hx] at hsome; simp at hsome
    | some q1 =>
      rw [hx] at hsome
      simp only [Option.bind_eq_bind, Option.some_bind] at hsome
      cases hy : randrange 2 (h - 2) 1 q1.2 with
      | none => rw [hy] at hsome; simp at hsome
      | some q2 =>
        rw [hy] at hsome
        simp only [Option.bind_eq_bind, Option.some_bind] at hsome
        split at hsome
        · split at hsome
          · split at hsome
            · rw [Option.some_inj] at hsome
              rw [← hsome]
              exact mazeWF_setCell w h st.1 q1.1 q2.1 3 hwf
            · rw [Option.some_inj] at hsome
              rw [← hsome]
              exact vertTry_wf w h st.1 _ st.2.2 q1.1 q2.1 hwf
          · rw [Option.some_inj] at hsome
            rw [← hsome]
            exact vertTry_wf w h st.1 _ st.2.2 q1.1 q2.1 hwf
        · rw [Option.some_inj] at hsome
          rw [← hsome]
          exact hwf

lemma addConns_keep (w h : Nat) (m : Maze) (rs : RS) (p : Maze × RS) (tx tz : Nat)
    (hsome : addConns w h m rs = some p) (h1 : cellAt m tx tz = 1) :
    cellAt p.1 tx tz = 1 := by
  unfold addConns at hsome
  cases hf : (List.range ((randint 15 25 rs).1 * 3)).foldlM
      (fun st _ => connStep w h (randint 15 25 rs).1 st) (m, (randint 15 25 rs).2, 0) with
  | none => rw [hf] at hsome; simp at hsome
  | some st =>
    rw [hf] at hsome
    simp only [Option.bind_eq_bind, Option.some_bind, Option.some_inj] at hsome
    have hkeep := foldlM_option_pres _ (fun q : Maze × RS × Nat => cellAt q.1 tx tz = 1)
      (fun a c b hab ha => connStep_keep w h (randint 15 25 rs).1 a b tx tz hab ha)
      (List.range ((randint 15 25 rs).1 * 3)) (m, (randint 15 25 rs).2, 0) st hf h1
    rw [← hsome]
    exact hkeep

lemma addConns_wf (w h : Nat) (m : Maze) (rs : RS) (p : Maze × RS)
    (hsome : addConns w h m rs = some p) (hwf : mazeWF w h m) :
    mazeWF w h p.1 := by
  unfold addConns at hsome
  cases hf : (List.range ((randint 15 25 rs).1 * 3)).foldlM
      (fun st _ => connStep w h (randint 15 25 rs).1 st) (m, (randint 15 25 rs).2, 0) with
  | none => rw [hf] at hsome; simp at hsome
  | some st =>
    rw [hf] at hsome
    simp only [Option.bind_eq_bind, Option.some_bind, Option.some_inj] at hsome
    have hkeep := foldlM_option_pres _ (fun q : Maze × RS × Nat => mazeWF w h q.1)
      (fun a c b hab ha => connStep_wf w h (randint 15 25 rs).1 a b hab ha)
      (List.range ((randint 15 25 rs).1 * 3)) (m, (randint 15 25 rs).2, 0) st hf hwf
    rw [← hsome]
    exact hkeep

/-- Shorthand for the grid state after the start block and the carve loop. -/
def carvedSkeleton (w h : Nat) (rs : RS) : Maze × RS :=
  carveLoop w h (2 * w * h + 2)
    (writeCells w h 1 (blockWrites (startCoord w) (startCoord h))
      (List.replicate h (List.replicate w 0)))
    [((startCoord w : Int), (startCoord h : Int))] rs

lemma generateMaze_eq_bind (w h : Nat) (rs : RS) :
    generateMaze w h rs =
      (addRooms w h (carvedSkeleton w h rs).1 (carvedSkeleton w h rs).2).bind
        (fun q => addConns w h q.1 q.2) := rfl

lemma generateMaze_wf (w h : Nat) (rs : RS) (p : Maze × RS)
    (hsome : generateMaze w h rs = some p) : mazeWF w h p.1 := by
  rw [generateMaze_eq_bind] at hsome
  cases hr : addRooms w h (carvedSkeleton w h rs).1 (carvedSkeleton w h rs).2 with
  | none => rw [hr] at hsome; simp at hsome
  | some q =>
    rw [hr] at hsome
    simp only [Option.some_bind] at hsome
    have hq : q.1 = (carvedSkeleton w h rs).1 := addRooms_unchanged w h _ _ q hr
    have hwf0 : mazeWF w h (carvedSkeleton w h rs).1 :=
      carveLoop_wf w h _ _ _ _
        (mazeWF_writeCells w h 1 _ _ (mazeWF_replicate w h))
    exact addConns_wf w h q.1 q.2 p hsome (hq ▸ hwf0)

lemma generateMaze_block_one (w h : Nat) (rs : RS) (p : Maze × RS)
    (hsome : generateMaze w h rs = some p) (x z : Nat) (hx : x < w) (hz : z < h)
    (hmem : ((x : Int), (z : Int)) ∈ blockWrites (startCoord w) (startCoord h)) :
    cellAt p.1 x z = 1 := by
  rw [generateMaze_eq_bind] at hsome
  cases hr : addRooms w h (carvedSkeleton w h rs).1 (carvedSkeleton w h rs).2 with
  | none => rw [hr] at hsome; simp at hsome
  | some q =>
    rw [hr] at hsome
    simp only [Option.some_bind] at hsome
    have hq : q.1 = (carvedSkeleton w h rs).1 := addRooms_unchanged w h _ _ q hr
    have h1 : cellAt (carvedSkeleton w h rs).1 x z = 1 :=
      carveLoop_keep w h x z _ _ _ _
        (cellAt_writeCells_mem w h 1 _ _ x z (mazeWF_replicate w h) hx hz hmem)
    exact addConns_keep w h q.1 q.2 p x z hsome (hq ▸ h1)

/-! ## Spawn-method lemmas -/

lemma roomSpawn_walkable (w h : Nat) (m : Maze) (rooms : List RoomRec)
    (q : Nat × Nat) (hs : roomSpawn w h m rooms = some q) :
    walkable (cellAt m q.1 q.2) = true := by
  unfold roomSpawn at hs
  cases hf : rooms.find? (fun r =>
      decide (r.center_x < w) && decide (r.center_y < h) &&
      walkable (cellAt m r.center_x r.center_y)) with
  | none => rw [hf] at hs; simp at hs
  | some r =>
    rw [hf] at hs
    simp only [Option.map_some', Option.some_inj] at hs
    have hp := List.find?_some hf
    simp only [Bool.and_eq_true] at hp
    rw [← hs]
    exact hp.2

lemma searchSpawn_walkable (w h : Nat) (m : Maze) (cx cz : Int) (maxOff : Nat)
    (q : Int × Int) (hs : searchSpawn w h m cx cz maxOff = some q) :
    walkable (cellAt m q.1.toNat q.2.toNat) = true := by
  unfold searchSpawn at hs
  cases hf : (searchCands maxOff).find? (fun d =>
      decide (0 ≤ cx + d.1) && decide (cx + d.1 < (w : Int)) &&
      decide (0 ≤ cz + d.2) && decide (cz + d.2 < (h : Int)) &&
      walkable (cellAtI m (cx + d.1) (cz + d.2))) with
  | none => rw [hf] at hs; simp at hs
  | some d =>
    rw [hf] at hs
    simp only [Option.map_some', Option.some_inj] at hs
    have hp := List.find?_some hf
    simp only [Bool.and_eq_true, decide_eq_true_eq] at hp
    have hwalk := hp.2
    rw [cellAtI, if_pos ⟨hp.1.1.1.1, hp.1.1.2⟩] at hwalk
    rw [← hs]
    exact hwalk

lemma scanSpawn_walkable (w h step : Nat) (m : Maze) (q : Nat × Nat)
    (hs : scanSpawn w h step m = some q) : walkable (cellAt m q.1 q.2) = true := by
  unfold scanSpawn at hs
  have := List.find?_some hs
  simpa using this

lemma scanSpawn_none_all (w h step : Nat) (m : Maze)
    (hs : scanSpawn w h step m = none) (c : Nat × Nat)
    (hmem : c ∈ scanCands w h step) : ¬ walkable (cellAt m c.1 c.2) = true := by
  unfold scanSpawn at hs
  exact List.find?_eq_none.mp hs c hmem

lemma walkable_two : walkable 2 = true := rfl

lemma walkable_one : walkable 1 = true := rfl

lemma spawnInit_eq_room (w h : Nat) (m : Maze) (rooms : List RoomRec) (q : Nat × Nat)
    (hr : roomSpawn w h m rooms = some q) : spawnInit w h m rooms = (q, m) := by
  unfold spawnInit
  rw [hr]

lemma spawnInit_eq_search (w h : Nat) (m : Maze) (rooms : List RoomRec) (q : Int × Int)
    (hr : roomSpawn w h m rooms = none)
    (hs : searchSpawn w h m ((w / 2 : Nat) : Int) ((h / 2 : Nat) : Int) 30 = some q) :
    spawnInit w h m rooms = ((q.1.toNat, q.2.toNat), m) := by
  unfold spawnInit
  rw [hr, hs]

lemma spawnInit_eq_scan (w h : Nat) (m : Maze) (rooms : List RoomRec) (q : Nat × Nat)
    (hr : roomSpawn w h m rooms = none)
    (hs : searchSpawn w h m ((w / 2 : Nat) : Int) ((h / 2 : Nat) : Int) 30 = none)
    (hc : scanSpawn w h 3 m = some q) : spawnInit w h m rooms = (q, m) := by
  unfold spawnInit
  rw [hr, hs, hc]

lemma spawnInit_eq_force (w h : Nat) (m : Maze) (rooms : List RoomRec)
    (hr : roomSpawn w h m rooms = none)
    (hs : searchSpawn w h m ((w / 2 : Nat) : Int) ((h / 2 : Nat) : Int) 30 = none)
    (hc : scanSpawn w h 3 m = none) :
    spawnInit w h m rooms =
      ((w / 2, h / 2), writeCells w h 2 (forceWrites ((w / 2 : Nat) : Int) ((h / 2 : Nat) : Int)) m) := by
  unfold spawnInit
  rw [hr, hs, hc]

lemma spawnRegen_eq_room (w h : Nat) (m : Maze) (rooms : List RoomRec) (q : Nat × Nat)
    (hr : roomSpawn w h m rooms = some q) : spawnRegen w h m rooms = q := by
  unfold spawnRegen
  rw [hr]

lemma spawnRegen_eq_search (w h : Nat) (m : Maze) (rooms : List RoomRec) (q : Int × Int)
    (hr : roomSpawn w h m rooms = none)
    (hs : searchSpawn w h m ((w / 2 : Nat) : Int) ((h / 2 : Nat) : Int) 20 = some q) :
    spawnRegen w h m rooms = (q.1.toNat, q.2.toNat) := by
  unfold spawnRegen
  rw [hr, hs]

lemma spawnRegen_eq_scan (w h : Nat) (m : Maze) (rooms : List RoomRec) (q : Nat × Nat)
    (hr : roomSpawn w h m rooms = none)
    (hs : searchSpawn w h m ((w / 2 : Nat) : Int) ((h / 2 : Nat) : Int) 20 = none)
    (hc : scanSpawn w h 2 m = some q) : spawnRegen w h m rooms = q := by
  unfold spawnRegen
  rw [hr, hs, hc]

/-- An odd value at least two below the bound is hit by a step-2 scan
starting at 1. -/
lemma rangeStep_mem_odd (y N : Nat) (hy : y % 2 = 1) (h2 : y + 2 ≤ N) :
    y ∈ rangeStep 1 N 2 := by
  unfold rangeStep
  rw [List.mem_map]
  refine ⟨y / 2, ?_, by omega⟩
  rw [List.mem_range]
  omega

lemma scanCands_mem (w h step : Nat) (x z : Nat) (hx : x ∈ rangeStep 1 (w - 1) step)
    (hz : z ∈ rangeStep 1 (h - 1) step) : (x, z) ∈ scanCands w h step := by
  unfold scanCands
  rw [List.mem_flatMap]
  exact ⟨z, hz, List.mem_map.mpr ⟨x, hx, rfl⟩⟩

lemma blockWrites_mem_off (cx cy dx dy : Int) (hdx : dx ∈ offs7) (hdy : dy ∈ offs7) :
    (cx + dx, cy + dy) ∈ blockWrites cx cy := by
  unfold blockWrites
  rw [List.mem_flatMap]
  exact ⟨dy, hdy, List.mem_map.mpr ⟨dx, hdx, rfl⟩⟩

lemma forceWrites_mem_self (cx cz : Int) : (cx, cz) ∈ forceWrites cx cz := by
  unfold forceWrites
  rw [List.mem_flatMap]
  refine ⟨0, by decide, List.mem_map.mpr ⟨0, by decide, by simp⟩⟩

/-- `12 + (n // 24) * 12` is always even (and at least 12). -/
lemma startCoord_even (n : Nat) : startCoord n % 2 = 0 ∧ 12 ≤ startCoord n := by
  unfold startCoord
  omega

/-- C2 main lemma, `Game3D.__init__` side: whatever maze the generator
completed with, the spawn selection of lines 1528-1597 lands on a walkable
cell (Methods 1-3 test walkability before accepting; Method 4 force-carves
Room cells over the centre). -/
lemma spawnInit_walkable (w h : Nat) (m : Maze) (rooms : List RoomRec)
    (hw : 0 < w) (hh : 0 < h) (hwf : mazeWF w h m) :
    walkable (spawnCellInit w h m rooms) = true := by
  show walkable (cellAt (spawnInit w h m rooms).2
    (spawnInit w h m rooms).1.1 (spawnInit w h m rooms).1.2) = true
  cases hr : roomSpawn w h m rooms with
  | some q =>
    rw [spawnInit_eq_room w h m rooms q hr]
    exact roomSpawn_walkable w h m rooms q hr
  | none =>
    cases hsearch : searchSpawn w h m ((w / 2 : Nat) : Int) ((h / 2 : Nat) : Int) 30 with
    | some q =>
      rw [spawnInit_eq_search w h m rooms q hr hsearch]
      exact searchSpawn_walkable w h m _ _ 30 q hsearch
    | none =>
      cases hscan : scanSpawn w h 3 m with
      | some q =>
        rw [spawnInit_eq_scan w h m rooms q hr hsearch hscan]
        exact scanSpawn_walkable w h 3 m q hscan
      | none =>
        rw [spawnInit_eq_force w h m rooms hr hsearch hscan]
        have heff : cellAt
            (writeCells w h 2 (forceWrites ((w / 2 : Nat) : Int) ((h / 2 : Nat) : Int)) m)
            (w / 2) (h / 2) = 2 :=
          cellAt_writeCells_mem w h 2 _ m (w / 2) (h / 2) hwf
            (by omega) (by omega) (forceWrites_mem_self _ _)
        simp only []
        rw [heff, walkable_two]

/-- C2 main lemma, `Game3D.regenerate_world` side: as long as some cell of
the step-2 emergency scan grid is carved, the scan cannot fail, so some
method always lands on a walkable cell. -/
lemma spawnRegen_walkable (w h : Nat) (m : Maze) (rooms : List RoomRec) (x z : Nat)
    (hxz : (x, z) ∈ scanCands w h 2) (hcell : cellAt m x z = 1) :
    walkable (spawnCellRegen w h m rooms) = true := by
  show walkable (cellAt m (spawnRegen w h m rooms).1 (spawnRegen w h m rooms).2) = true
  cases hr : roomSpawn w h m rooms with
  | some q =>
    rw [spawnRegen_eq_room w h m rooms q hr]
    exact roomSpawn_walkable w h m rooms q hr
  | none =>
    cases hsearch : searchSpawn w h m ((w / 2 : Nat) : Int) ((h / 2 : Nat) : Int) 20 with
    | some q =>
      rw [spawnRegen_eq_search w h m rooms q hr hsearch]
      exact searchSpawn_walkable w h m _ _ 20 q hsearch
    | none =>
      cases hscan : scanSpawn w h 2 m with
      | some q =>
        rw [spawnRegen_eq_scan w h m rooms q hr hsearch hscan]
        exact scanSpawn_walkable w h 2 m q hscan
      | none =>
        exfalso
        have hnot := scanSpawn_none_all w h 2 m hscan (x, z) hxz
        rw [show cellAt m (x, z).1 (x, z).2 = 1 from hcell, walkable_one] at hnot
        exact hnot rfl

/-! ## Claim theorems -/

/-- C2: for every run of `MazeMap(width, height)` that completes with the
grid-aligned start block fitting inside the grid (true in particular of
the default 81x81 level `Game3D` always builds), whatever room list the
game then holds, the spawn coordinate computed by `Game3D.__init__` (in
the maze as possibly repaired by the forced 5x5 carve of Method 4) and the
spawn coordinate computed by `Game3D.regenerate_world` both sit on a cell
tagged Corridor/Room/Door (1, 2 or 3), never Wall: Methods 1-3 only accept
walkable cells, `__init__`'s last resort force-carves Room cells over the
centre, and `regenerate_world`'s step-2 emergency scan can never fail
because the carved start seed block always contains an odd-coordinate
scanned cell (at the default size, cell (45, 45)). -/
theorem c2_spawn_never_wall (w h : Nat) (rs : RS) (p : Maze × RS) (rooms : List RoomRec)
    (hw : startCoord (effDim w) + 5 ≤ effDim w)
    (hh : startCoord (effDim h) + 5 ≤ effDim h)
    (hgen : mazeMapMaze w h rs = some p) :
    walkable (spawnCellInit (effDim w) (effDim h) p.1 rooms) = true ∧
    walkable (spawnCellRegen (effDim w) (effDim h) p.1 rooms) = true := by
  have hgen2 : generateMaze (effDim w) (effDim h) rs = some p := hgen
  have hwf := generateMaze_wf (effDim w) (effDim h) rs p hgen2
  have hsw := startCoord_even (effDim w)
  have hsh := startCoord_even (effDim h)
  have hmem : (((startCoord (effDim w) - 3 : Nat) : Int),
      ((startCoord (effDim h) - 3 : Nat) : Int)) ∈
      blockWrites (startCoord (effDim w)) (startCoord (effDim h)) := by
    have h1 : ((startCoord (effDim w) - 3 : Nat) : Int) =
        (startCoord (effDim w) : Int) + (-3) := by omega
    have h2 : ((startCoord (effDim h) - 3 : Nat) : Int) =
        (startCoord (effDim h) : Int) + (-3) := by omega
    rw [h1, h2]
    exact blockWrites_mem_off _ _ _ _ (by decide) (by decide)
  have hcell : cellAt p.1 (startCoord (effDim w) - 3) (startCoord (effDim h) - 3) = 1 :=
    generateMaze_block_one (effDim w) (effDim h) rs p hgen2 _ _
      (by omega) (by omega) hmem
  have hscan : (startCoord (effDim w) - 3, startCoord (effDim h) - 3) ∈
      scanCands (effDim w) (effDim h) 2 :=
    scanCands_mem _ _ 2 _ _
      (rangeStep_mem_odd _ _ (by omega) (by omega))
      (rangeStep_mem_odd _ _ (by omega) (by omega))
  exact ⟨spawnInit_walkable (effDim w) (effDim h) p.1 rooms (by omega) (by omega) hwf,
    spawnRegen_walkable (effDim w) (effDim h) p.1 rooms _ _ hscan hcell⟩

set_option maxRecDepth 2000000 in
set_option maxHeartbeats 4000000 in
/-- C2 witness: the all-zeros tape completes generation of a 39x39 level
(odd dimensions kept as-is, start block at (24, 24) well inside the grid),
and the theorem then yields walkable spawn cells for both paths. -/
theorem c2_spawn_never_wall_witness :
    (mazeMapMaze 39 39 zRS).elim False (fun p =>
      walkable (spawnCellInit (effDim 39) (effDim 39) p.1 []) = true ∧
      walkable (spawnCellRegen (effDim 39) (effDim 39) p.1 []) = true) := by
  have hs : (mazeMapMaze 39 39 zRS).isSome = true := by decide
  cases hg : mazeMapMaze 39 39 zRS with
  | none => rw [hg] at hs; simp at hs
  | some p =>
    exact c2_spawn_never_wall 39 39 zRS p [] (by decide) (by decide) hg

set_option maxRecDepth 1000000 in
/-- C1: the connectivity claim cannot hold of this code because the room
overlay kills every run in which a room candidate is accepted:
`add_rooms` runs inside `generate_maze()` (line 136), but `self.rooms` is
first assigned only after `generate_maze()` returns (line 46), so the
`self.rooms.append` of line 173 raises `AttributeError`.  Concretely, on
the all-zeros tape a 27x27 `MazeMap` carves only the start seed block,
the first 15x15 candidate at (5, 5) is 100% Wall and is accepted, and the
run dies: no maze (and in particular no maze with a carved room) is ever
produced.  A completed run can only be one in which every candidate was
rejected. -/
theorem c1_room_overlay_crashes :
    roomAccepted (carvedSkeleton 27 27 zRS).1 5 5 15 15 = true ∧
    (mazeMapMaze 27 27 zRS).isSome = false := by
  constructor
  · decide
  · decide

set_option maxRecDepth 2000000 in
set_option maxHeartbeats 4000000 in
/-- C4 counterexample: with configured dimensions 81x27 (both already odd,
so kept), the all-zeros tape completes generation, yet the cell
(x, z) = (48, 26) on the bottom border row `z = height - 1 = 26` carries
tag 1 (Corridor), not Wall: the 7x7 start seed block around the start cell
(48, 24) spills over the border because its bounds check (line 84) clips
at the grid edge instead of stopping at the border ring. -/
theorem c4_border_breach_cx :
    (mazeMapMaze 81 27 zRS).map (fun p => cellAt p.1 48 26) = some 1 := by
  decide

/-- C6 counterexample: construction enforces no minimum size.  Requesting
21x21 (the spec's own example size is the default 81) yields effective
dimension 21, below the only configured size 81; nothing forces the
result up to any minimum. -/
theorem c6_no_minimum_cx : effDim 21 = 21 ∧ 21 < 81 := by decide

/-- C6 amended: the effective dimensions are both odd — an odd input is
kept as-is and an even input is incremented by one, for every even/odd
combination — and hence at least the input; but no separate minimum is
enforced. -/
theorem c6_odd_dims (n : Nat) :
    (effDim n) % 2 = 1 ∧ n ≤ effDim n ∧ effDim n ≤ n + 1 ∧
    effDim (2 * n) = 2 * n + 1 ∧ effDim (2 * n + 1) = 2 * n + 1 := by
  have h2 : (2 * n) % 2 = 0 := by omega
  have h3 : (2 * n + 1) % 2 = 1 := by omega
  by_cases hn : n % 2 = 1 <;> simp [effDim, hn, h2, h3] <;> omega

/-- C10: `gain_experience(amount)` adds exactly `amount` to experience;
it returns `True` iff `(new experience // 100) + 1` exceeds the current
level; on `True` the level becomes that value, `max_hp` grows by exactly
one (however many 100-point thresholds were crossed) and `hp` is set to
the new `max_hp`; on `False` level, `max_hp` and `hp` are unchanged. -/
theorem c10_gain_experience (p : PlayerProg) (amount : Nat) :
    (gain_experience p amount).1.experience = p.experience + amount ∧
    ((gain_experience p amount).2 = true ↔
      p.level < (p.experience + amount) / 100 + 1) ∧
    ((gain_experience p amount).2 = true →
      (gain_experience p amount).1.level = (p.experience + amount) / 100 + 1 ∧
      (gain_experience p amount).1.max_hp = p.max_hp + 1 ∧
      (gain_experience p amount).1.hp = (gain_experience p amount).1.max_hp) ∧
    ((gain_experience p amount).2 = false →
      (gain_experience p amount).1.level = p.level ∧
      (gain_experience p amount).1.max_hp = p.max_hp ∧
      (gain_experience p amount).1.hp = p.hp) := by
  unfold gain_experience
  by_cases hl : p.level < (p.experience + amount) / 100 + 1 <;> simp [hl]

/-- C10 witness: a player at level 1 with 0 experience gaining 250 points
crosses two thresholds in one call, reaches level 3, but `max_hp` rises by
exactly one (to 6) and `hp` is refilled to it; a non-crossing gain changes
none of the three fields. -/
theorem c10_gain_experience_witness :
    (gain_experience (PlayerProg.mk 0 1 5 4) 250).1.level = (0 + 250) / 100 + 1 ∧
    (gain_experience (PlayerProg.mk 0 1 5 4) 250).1.max_hp = 5 + 1 ∧
    (gain_experience (PlayerProg.mk 0 1 5 4) 250).1.hp =
      (gain_experience (PlayerProg.mk 0 1 5 4) 250).1.max_hp ∧
    (gain_experience (PlayerProg.mk 40 1 5 4) 10).1.hp = 4 :=
  ⟨((c10_gain_experience (PlayerProg.mk 0 1 5 4) 250).2.2.1 (by decide)).1,
   ((c10_gain_experience (PlayerProg.mk 0 1 5 4) 250).2.2.1 (by decide)).2.1,
   ((c10_gain_experience (PlayerProg.mk 0 1 5 4) 250).2.2.1 (by decide)).2.2,
   ((c10_gain_experience (PlayerProg.mk 40 1 5 4) 10).2.2.2 (by decide)).2.2⟩

/-- C8: a candidate room is carved only when strictly more than 80% of
its footprint is Wall (hence at least 80%); a candidate with fewer Wall
cells than the threshold leaves the generator's maze untouched.  (When the
threshold is met the source carves and then crashes on the
`self.rooms.append` of line 173 — see `addRoomAttempt` — so a surviving
attempt never modifies the maze at all, which the last conjunct
records.) -/
theorem c8_room_threshold (m : Maze) (rx ry rw rh : Nat) :
    (roomAccepted m rx ry rw rh = true →
      4 * (rw * rh) < 5 * roomWallCount m rx ry rw rh) ∧
    (5 * roomWallCount m rx ry rw rh ≤ 4 * (rw * rh) →
      roomAccepted m rx ry rw rh = false) ∧
    (∀ w h rs q, addRoomAttempt w h m rs = some q → q.1 = m) := by
  refine ⟨?_, ?_, ?_⟩
  · intro hacc
    unfold roomAccepted at hacc
    exact of_decide_eq_true hacc
  · intro hle
    unfold roomAccepted
    simp only [decide_eq_false_iff_not]
    omega
  · intro w h rs q hq
    exact addRoomAttempt_unchanged w h m rs q hq

/-- A fully open 20x20 grid (every cell Corridor), used as the C8 witness
input. -/
def mOpen20 : Maze := List.replicate 20 (List.replicate 20 1)

set_option maxRecDepth 200000 in
/-- C8 witness: on an all-Wall grid the first candidate footprint is 100%
Wall and the threshold comparison holds; on an all-Corridor grid the
candidate is below the threshold, is rejected, and the surviving attempt
hands back the maze unchanged. -/
theorem c8_room_threshold_witness :
    (4 * (15 * 15) <
      5 * roomWallCount (List.replicate 20 (List.replicate 20 0)) 5 5 15 15) ∧
    roomAccepted mOpen20 5 5 15 15 = false ∧
    (addRoomAttempt 40 40 mOpen20 zRS).elim False (fun q => q.1 = mOpen20) := by
  refine ⟨(c8_room_threshold (List.replicate 20 (List.replicate 20 0)) 5 5 15 15).1
      (by decide),
    (c8_room_threshold mOpen20 5 5 15 15).2.1 (by decide), ?_⟩
  have hs : (addRoomAttempt 40 40 mOpen20 zRS).isSome = true := by decide
  cases hg : addRoomAttempt 40 40 mOpen20 zRS with
  | none => rw [hg] at hs; simp at hs
  | some q =>
    exact (c8_room_threshold mOpen20 5 5 15 15).2.2 40 40 zRS q hg

lemma keysDisjoint_append (ts : List ((Nat × Nat) × TreasureRec))
    (e : (Nat × Nat) × TreasureRec) (ms : List ((Nat × Nat) × MonsterRec)) :
    keysDisjoint (ts ++ [e]) ms = (keysDisjoint ts ms && !hasKey e.1 ms) := by
  simp [keysDisjoint, List.all_append]

lemma placeTreasuresGo_disjoint (numT : Nat) (ms : List ((Nat × Nat) × MonsterRec)) :
    ∀ (cands : List (Nat × Nat × String)) (placed : Nat)
      (acc : List ((Nat × Nat) × TreasureRec)) (rs : RS),
      keysDisjoint acc ms = true →
      keysDisjoint (placeTreasuresGo numT ms cands placed acc rs).1 ms = true := by
  intro cands
  induction cands with
  | nil => intro placed acc rs hacc; simpa [placeTreasuresGo] using hacc
  | cons c t ih =>
    intro placed acc rs hacc
    unfold placeTreasuresGo
    split
    · simpa using hacc
    · split
      · next hcond =>
        apply ih
        rw [keysDisjoint_append]
        simp only [Bool.and_eq_true] at hcond ⊢
        exact ⟨hacc, hcond.1⟩
      · exact ih _ _ _ hacc

/-- C5: after entity placement, no grid coordinate keys both a monster and
a treasure: `place_treasures` (lines 470-488) inserts a coordinate only
after checking `(x, z) not in self.monsters and (x, z) not in treasures`.
Stated for every grid, room list, monster tape and treasure tape, hence in
particular for the maps `MazeMap.__init__` builds. -/
theorem c5_entity_disjointness (w h : Nat) (m : Maze) (rooms : List RoomRec)
    (rs1 rs2 : RS) :
    keysDisjoint
      (place_treasures w h m rooms (place_monsters w h m rs1).1 rs2).1
      (place_monsters w h m rs1).1 = true := by
  unfold place_treasures
  apply placeTreasuresGo_disjoint
  rfl

lemma can_move_to_false_of_blocked (m : Maze) (w h : Nat) (nx nz : ℚ)
    (hb : blockedAt m w h nx nz) : can_move_to m w h nx nz = false := by
  unfold can_move_to
  split
  · next hin =>
    rcases hb with hb | hb
    · exact absurd hin hb
    · simp [hb, walkable]
  · rfl

lemma slideMove_fixed (m : Maze) (w h : Nat) (p : Pos2) (dx dz : ℚ)
    (hb : slideBlocked m w h p dx dz) : slideMove m w h p dx dz = p := by
  unfold slideMove
  simp [can_move_to_false_of_blocked m w h _ _ hb.1,
    can_move_to_false_of_blocked m w h _ _ hb.2.1,
    can_move_to_false_of_blocked m w h _ _ hb.2.2]

/-- C7: whenever, for one movement direction, the direct target cell, the
x-only slide target cell and the z-only slide target cell are all Wall
cells or outside the buffered bounds, then any number of repetitions of
that movement operation leaves the player's x and z unchanged.  The
trigonometric direction factors are universally quantified, so this covers
every rotation and speed. -/
theorem c7_wall_blocks_movement (m : Maze) (w h : Nat) (cosY sinY speed : ℚ)
    (p : Pos2) (n : Nat) :
    (slideBlocked m w h p (sinY * speed) (cosY * speed) →
      (move_forward m w h cosY sinY speed)^[n] p = p) ∧
    (slideBlocked m w h p (-sinY * speed) (-cosY * speed) →
      (move_backward m w h cosY sinY speed)^[n] p = p) ∧
    (slideBlocked m w h p (-cosY * speed) (sinY * speed) →
      (strafe_left m w h cosY sinY speed)^[n] p = p) ∧
    (slideBlocked m w h p (cosY * speed) (-sinY * speed) →
      (strafe_right m w h cosY sinY speed)^[n] p = p) := by
  refine ⟨fun hb => Function.iterate_fixed ?_ n, fun hb => Function.iterate_fixed ?_ n,
    fun hb => Function.iterate_fixed ?_ n, fun hb => Function.iterate_fixed ?_ n⟩
  · exact slideMove_fixed m w h p _ _ hb
  · exact slideMove_fixed m w h p _ _ hb
  · exact slideMove_fixed m w h p _ _ hb
  · exact slideMove_fixed m w h p _ _ hb

/-- A 3x3 all-Wall grid, the C7 witness input. -/
def mWall3 : Maze := List.replicate 3 (List.replicate 3 0)

lemma mWall3_blocked (nx nz : ℚ) : blockedAt mWall3 3 3 nx nz := by
  by_cases hin : 1/5 ≤ nx ∧ nx < (3 : ℚ) - 1/5 ∧ 1/5 ≤ nz ∧ nz < (3 : ℚ) - 1/5
  · right
    unfold cellAt mWall3
    rw [getD_replicate]
    split
    · rw [getD_replicate]
      split
      · rfl
      · rfl
    · rfl
  · left
    exact hin

/-- C7 witness: in a 3x3 all-Wall grid, a player standing at (1.5, 1.5)
facing yaw 0 (`cos = 1`, `sin = 0`) at the default speed 0.2 is left in
place by two repetitions of each of the four movement operations. -/
theorem c7_wall_blocks_movement_witness :
    (move_forward mWall3 3 3 1 0 (1/5))^[2] (Pos2.mk (3/2) (3/2)) = Pos2.mk (3/2) (3/2) ∧
    (move_backward mWall3 3 3 1 0 (1/5))^[2] (Pos2.mk (3/2) (3/2)) = Pos2.mk (3/2) (3/2) ∧
    (strafe_left mWall3 3 3 1 0 (1/5))^[2] (Pos2.mk (3/2) (3/2)) = Pos2.mk (3/2) (3/2) ∧
    (strafe_right mWall3 3 3 1 0 (1/5))^[2] (Pos2.mk (3/2) (3/2)) = Pos2.mk (3/2) (3/2) :=
  ⟨(c7_wall_blocks_movement mWall3 3 3 1 0 (1/5) (Pos2.mk (3/2) (3/2)) 2).1
      ⟨mWall3_blocked _ _, mWall3_blocked _ _, mWall3_blocked _ _⟩,
   (c7_wall_blocks_movement mWall3 3 3 1 0 (1/5) (Pos2.mk (3/2) (3/2)) 2).2.1
      ⟨mWall3_blocked _ _, mWall3_blocked _ _, mWall3_blocked _ _⟩,
   (c7_wall_blocks_movement mWall3 3 3 1 0 (1/5) (Pos2.mk (3/2) (3/2)) 2).2.2.1
      ⟨mWall3_blocked _ _, mWall3_blocked _ _, mWall3_blocked _ _⟩,
   (c7_wall_blocks_movement mWall3 3 3 1 0 (1/5) (Pos2.mk (3/2) (3/2)) 2).2.2.2
      ⟨mWall3_blocked _ _, mWall3_blocked _ _, mWall3_blocked _ _⟩⟩

/-- C9: (a) a point exactly at the camera position projects to `None` for
every rotation pair (all four trigonometric factors, the fov factor, the
camera and the viewport are universally quantified) and, being a total
function, never raises; (b) a point directly ahead of the camera at yaw 0
and pitch 0 (`cos = 1`, `sin = 0`, exactly the float values of
`cos(0)`/`sin(0)`) with depth above the near epsilon projects to the
horizontal screen centre `viewportWidth / 2` (an integer for the even
viewport widths the renderer uses). -/
theorem c9_projection_center (cosY sinY cosX sinX f : ℚ) (cam : Vec3)
    (w h : Nat) (x y cz d : ℚ) (hd : 1/1000 < d) (hw : w % 2 = 0) :
    project_3d_to_2d cosY sinY cosX sinX f cam cam w h = none ∧
    (project_3d_to_2d 1 0 1 0 f (Vec3.mk x y (cz + d)) (Vec3.mk x y cz) w h).map
      (fun s => s.1) = some ((w / 2 : Nat) : Int) := by
  constructor
  · unfold project_3d_to_2d
    simp only [sub_self, zero_mul, mul_zero, zero_add, add_zero, sub_zero, zero_sub,
      neg_zero]
    rw [if_pos (by norm_num)]
  · unfold project_3d_to_2d
    simp only [sub_self, add_sub_cancel_left, mul_one, mul_zero, zero_mul, zero_add,
      add_zero, sub_zero, zero_sub, neg_zero]
    rw [if_neg (not_le.mpr hd)]
    simp only [Option.map_some', Option.some_inj]
    rw [zero_div, zero_mul, zero_add]
    have hk : (w : ℚ) / 2 = ((w / 2 : Nat) : ℚ) := by
      obtain ⟨k, hkk⟩ := Nat.even_iff.mpr hw
      subst hkk
      have : (k + k) / 2 = k := by omega
      rw [this]
      push_cast
      ring
    rw [hk]
    unfold pyInt
    rw [if_pos (by positivity), Int.floor_natCast]

/-- C9 witness: with junk rotation factors the camera point itself maps to
`None`; at yaw = pitch = 0 a point 5 units ahead on the 1024-wide viewport
projects to screen x = 512. -/
theorem c9_projection_center_witness :
    project_3d_to_2d 2 3 5 7 (7/10) (Vec3.mk 5 6 7) (Vec3.mk 5 6 7) 1024 768 = none ∧
    (project_3d_to_2d 1 0 1 0 (7/10) (Vec3.mk 0 0 (0 + 5)) (Vec3.mk 0 0 0) 1024 768).map
      (fun s => s.1) = some ((1024 / 2 : Nat) : Int) :=
  ⟨(c9_projection_center 2 3 5 7 (7/10) (Vec3.mk 5 6 7) 1024 768 0 0 0 5
      (by norm_num) (by norm_num)).1,
   (c9_projection_center 1 0 1 0 (7/10) (Vec3.mk 5 6 7) 1024 768 0 0 0 5
      (by norm_num) (by norm_num)).2⟩

/-- C3 counterexample: an east wall face of the cell at (0, 0) viewed from
camera (0.3, 1, 0.0005) at yaw = pitch = 0.  Its two corners on the `z = 0`
edge fail to project (their camera-space depth is negative, behind the
near plane) — shown for the corner (1, 0, 0) — yet `render_maze_walls`
still emits the quad for drawing, because its filter keeps any quad with
at least 2 surviving corners (line 1088); the claim that a quad with a
failed vertex is dropped entirely is therefore false for wall quads. -/
theorem c3_partial_wall_quad_cx :
    wallVertexScreen 1 0 1 0 (7/10) (Vec3.mk (3/10) 1 (1/2000)) 1024 768
      (Vec3.mk 1 0 0) = none ∧
    (renderWallQuad 1 0 1 0 (7/10) (Vec3.mk (3/10) 1 (1/2000)) 1024 768
      [Vec3.mk 1 0 1, Vec3.mk 1 0 0, Vec3.mk 1 8 0, Vec3.mk 1 8 1]).isSome = true := by
  constructor
  · norm_num [wallVertexScreen, project_3d_to_2d]
  · norm_num [renderWallQuad, wallVertexScreen, project_3d_to_2d, List.filterMap, pyInt]

/-- C3 amended: a floor quad is emitted only when all 4 of its corners
project successfully within the extended depth range (`render_ground_plane`
keeps a quad only at `len(screen_corners) == 4`, line 1162); a wall quad,
however, is emitted as soon as at least 2 of its 4 corners project
(line 1088), so a wall quad with failed vertices can still be drawn
(partially, with surviving vertices clamped). -/
theorem c3_quad_filter_amended (cosY sinY cosX sinX f : ℚ) (cam : Vec3)
    (w h : Nat) (corners : List Vec3) (hlen : corners.length = 4) :
    ((renderFloorQuad cosY sinY cosX sinX f cam w h corners).isSome = true →
      ∀ v ∈ corners,
        (floorCornerScreen cosY sinY cosX sinX f cam w h v).isSome = true) ∧
    ((renderWallQuad cosY sinY cosX sinX f cam w h corners).isSome = true →
      2 ≤ (corners.filterMap (wallVertexScreen cosY sinY cosX sinX f cam w h)).length) := by
  constructor
  · intro hemit v hv
    simp only [renderFloorQuad] at hemit
    split at hemit
    · next hkeq =>
      exact filterMap_length_eq_all_isSome _ corners (by rw [hkeq, hlen]) v hv
    · simp at hemit
  · intro hemit
    simp only [renderWallQuad] at hemit
    split at hemit
    · next hge => exact hge
    · simp at hemit

/-- C3 amended witness: a floor quad two cells ahead of the camera has all
4 corners projecting (depths 2 and 4), is emitted, and the theorem yields
that each corner projected; the same 4 points as a wall quad are emitted
with at least 2 surviving corners. -/
theorem c3_quad_filter_amended_witness :
    (∀ v ∈ [Vec3.mk 0 (-1) 2, Vec3.mk 2 (-1) 2, Vec3.mk 2 (-1) 4, Vec3.mk 0 (-1) 4],
      (floorCornerScreen 1 0 1 0 (7/10) (Vec3.mk 0 (7/10) 0) 1024 768 v).isSome = true) ∧
    2 ≤ ([Vec3.mk 0 (-1) 2, Vec3.mk 2 (-1) 2, Vec3.mk 2 (-1) 4, Vec3.mk 0 (-1) 4].filterMap
      (wallVertexScreen 1 0 1 0 (7/10) (Vec3.mk 0 (7/10) 0) 1024 768)).length :=
  ⟨(c3_quad_filter_amended 1 0 1 0 (7/10) (Vec3.mk 0 (7/10) 0) 1024 768
      [Vec3.mk 0 (-1) 2, Vec3.mk 2 (-1) 2, Vec3.mk 2 (-1) 4, Vec3.mk 0 (-1) 4] rfl).1
      (by norm_num [renderFloorQuad, floorCornerScreen, project_3d_to_2d,
        List.filterMap, pyInt]),
   (c3_quad_filter_amended 1 0 1 0 (7/10) (Vec3.mk 0 (7/10) 0) 1024 768
      [Vec3.mk 0 (-1) 2, Vec3.mk 2 (-1) 2, Vec3.mk 2 (-1) 4, Vec3.mk 0 (-1) 4] rfl).2
      (by norm_num [renderWallQuad, wallVertexScreen, project_3d_to_2d,
        List.filterMap, pyInt])⟩

/-! ## Border invariant (C4 amended) -/

/-- Every border cell of the grid carries tag 0.  (`Prop` version used in
the inductive proofs; `borderAllWall` is the executable statement.) -/
def borderZero (w h : Nat) (m : Maze) : Prop :=
  ∀ x z, x < w → z < h → (x = 0 ∨ x = w - 1 ∨ z = 0 ∨ z = h - 1) → cellAt m x z = 0

lemma borderZero_setCellI (w h : Nat) (m : Maze) (a b : Int) (v : Nat)
    (ha : 1 ≤ a ∧ a ≤ (w : Int) - 2) (hb : 1 ≤ b ∧ b ≤ (h : Int) - 2)
    (hbz : borderZero w h m) : borderZero w h (setCellI w h m a b v) := by
  intro x z hx hz hborder
  unfold setCellI
  split
  · rw [cellAt_setCell]
    split
    · next hc =>
      exfalso
      obtain ⟨hc1, hc2, _⟩ := hc
      omega
    · exact hbz x z hx hz hborder
  · exact hbz x z hx hz hborder

lemma borderZero_writeCells (w h v : Nat) (l : List (Int × Int)) (m : Maze)
    (hl : ∀ p ∈ l, 1 ≤ p.1 ∧ p.1 ≤ (w : Int) - 2 ∧ 1 ≤ p.2 ∧ p.2 ≤ (h : Int) - 2)
    (hbz : borderZero w h m) : borderZero w h (writeCells w h v l m) := by
  induction l generalizing m with
  | nil => simpa [writeCells] using hbz
  | cons q t ih =>
    simp only [writeCells, List.foldl_cons]
    have hq := hl q (List.mem_cons_self q t)
    exact ih _ (fun r hr => hl r (List.mem_cons_of_mem q hr))
      (borderZero_setCellI w h m q.1 q.2 v ⟨hq.1, hq.2.1⟩ ⟨hq.2.2.1, hq.2.2.2⟩ hbz)

lemma offs7_bounds : ∀ o ∈ offs7, -3 ≤ o ∧ o ≤ 3 := by decide

lemma blockWrites_bounds (w h : Nat) (cx cy : Int)
    (hcx : 4 ≤ cx ∧ cx ≤ (w : Int) - 5) (hcy : 4 ≤ cy ∧ cy ≤ (h : Int) - 5) :
    ∀ p ∈ blockWrites cx cy,
      1 ≤ p.1 ∧ p.1 ≤ (w : Int) - 2 ∧ 1 ≤ p.2 ∧ p.2 ≤ (h : Int) - 2 := by
  intro p hp
  simp only [blockWrites, List.mem_flatMap, List.mem_map] at hp
  obtain ⟨dy, hdy, dx, hdx, heq⟩ := hp
  have h1 := offs7_bounds dy hdy
  have h2 := offs7_bounds dx hdx
  subst heq
  refine ⟨?_, ?_, ?_, ?_⟩ <;> simp <;> omega

lemma corridorWrites_bounds (w h : Nat) (cx cy dx dy : Int)
    (hd : (dx, dy) ∈ ((0, 0) : Int × Int) :: dirList)
    (hcx : 4 ≤ cx ∧ cx ≤ (w : Int) - 5) (hcy : 4 ≤ cy ∧ cy ≤ (h : Int) - 5)
    (hg : 6 ≤ cx + dx ∧ cx + dx < (w : Int) - 6 ∧ 6 ≤ cy + dy ∧ cy + dy < (h : Int) - 6) :
    ∀ p ∈ corridorWrites cx cy dx dy,
      1 ≤ p.1 ∧ p.1 ≤ (w : Int) - 2 ∧ 1 ≤ p.2 ∧ p.2 ≤ (h : Int) - 2 := by
  intro p hp
  have hdis : (dx = 0 ∧ dy = 0) ∨ (dx = 0 ∧ dy = 12) ∨ (dx = 12 ∧ dy = 0) ∨
      (dx = 0 ∧ dy = -12) ∨ (dx = -12 ∧ dy = 0) := by
    simp only [dirList, List.mem_cons, List.not_mem_nil, or_false, Prod.mk.injEq] at hd
    tauto
  rcases hdis with ⟨h1, h2⟩ | ⟨h1, h2⟩ | ⟨h1, h2⟩ | ⟨h1, h2⟩ | ⟨h1, h2⟩ <;> subst h1 <;> subst h2
  · norm_num [corridorWrites] at hp
  · norm_num [corridorWrites, List.mem_flatMap, List.mem_map, List.mem_range'_1] at hp
    obtain ⟨s, hs, o, ho, heq⟩ := hp
    have hob := offs7_bounds o ho
    subst heq
    refine ⟨?_, ?_, ?_, ?_⟩ <;> norm_num [sgn] <;> omega
  · norm_num [corridorWrites, List.mem_flatMap, List.mem_map, List.mem_range'_1] at hp
    obtain ⟨s, hs, o, ho, heq⟩ := hp
    have hob := offs7_bounds o ho
    subst heq
    refine ⟨?_, ?_, ?_, ?_⟩ <;> norm_num [sgn] <;> omega
  · norm_num [corridorWrites, List.mem_flatMap, List.mem_map, List.mem_range'_1] at hp
    obtain ⟨s, hs, o, ho, heq⟩ := hp
    have hob := offs7_bounds o ho
    subst heq
    refine ⟨?_, ?_, ?_, ?_⟩ <;> norm_num [sgn] <;> omega
  · norm_num [corridorWrites, List.mem_flatMap, List.mem_map, List.mem_range'_1] at hp
    obtain ⟨s, hs, o, ho, heq⟩ := hp
    have hob := offs7_bounds o ho
    subst heq
    refine ⟨?_, ?_, ?_, ?_⟩ <;> norm_num [sgn] <;> omega

lemma foldl_inv {β : Type u} {γ : Type v} (f : β → γ → β) (P : β → Prop)
    (hstep : ∀ b c, P b → P (f b c)) :
    ∀ (l : List γ) (b : β), P b → P (l.foldl f b) := by
  intro l
  induction l with
  | nil => intro b hb; simpa using hb
  | cons c t ih => intro b hb; exact ih _ (hstep b c hb)

lemma shuffleSwap_subset (d : α) (S : List α) (p : List α × RS) (i : Nat)
    (hsub : ∀ a ∈ p.1, a ∈ d :: S) : ∀ a ∈ (shuffleSwap d p i).1, a ∈ d :: S := by
  intro a ha
  simp only [shuffleSwap, RS.next] at ha
  rcases mem_of_mem_set _ _ _ _ ha with h | h
  · rcases getD_mem_or_default p.1 i d with hm | hm
    · exact hsub a (h ▸ hm)
    · rw [h, hm]
      exact List.mem_cons_self d S
  · rcases mem_of_mem_set _ _ _ _ h with h2 | h2
    · rcases getD_mem_or_default p.1 (p.2.tape p.2.pos % (i + 1)) d with hm | hm
      · exact hsub a (h2 ▸ hm)
      · rw [h2, hm]
        exact List.mem_cons_self d S
    · exact hsub a h2

/-- Every element of a shuffled list comes from the original list (or is
the dummy default, never actually produced for a nonempty input). -/
lemma pyShuffle_subset (d : α) (l : List α) (rs : RS) :
    ∀ a ∈ (pyShuffle d l rs).1, a ∈ d :: l := by
  unfold pyShuffle
  refine foldl_inv (shuffleSwap d) (fun (p : List α × RS) => ∀ a ∈ p.1, a ∈ d :: l)
    (fun p i hp => shuffleSwap_subset d l p i hp)
    ((List.range' 1 (l.length - 1)).reverse) (l, rs) ?_
  intro a ha
  exact List.mem_cons_of_mem d ha

/-- A direction returned by `findDir` is one of the searched candidates and
its target satisfies the 6-cell in-bounds guard of lines 101-105. -/
lemma findDir_some (w h : Nat) (m : Maze) (cx cy : Int) :
    ∀ (ds : List (Int × Int)) (dr : Int × Int), findDir w h m cx cy ds = some dr →
      dr ∈ ds ∧ 6 ≤ cx + dr.1 ∧ cx + dr.1 < (w : Int) - 6 ∧
        6 ≤ cy + dr.2 ∧ cy + dr.2 < (h : Int) - 6 := by
  intro ds
  induction ds with
  | nil => intro dr hf; simp [findDir] at hf
  | cons d rest ih =>
    intro dr hf
    rw [show findDir w h m cx cy (d :: rest) =
        (if 6 ≤ cx + d.1 ∧ cx + d.1 < (w : Int) - 6 ∧ 6 ≤ cy + d.2 ∧
            cy + d.2 < (h : Int) - 6 ∧ cellAtI m (cx + d.1) (cy + d.2) = 0 then some d
         else findDir w h m cx cy rest) from rfl] at hf
    split at hf
    · next hcond =>
      rw [Option.some_inj] at hf
      subst hf
      exact ⟨List.mem_cons_self d rest, hcond.1, hcond.2.1, hcond.2.2.1, hcond.2.2.2.1⟩
    · obtain ⟨hm, hb⟩ := ih dr hf
      exact ⟨List.mem_cons_of_mem d hm, hb⟩

/-- The carve loop never touches a border cell: every stack entry stays in
the coarse interior band, every write lands at least one cell inside. -/
lemma carveLoop_border (w h : Nat) :
    ∀ (fuel : Nat) (m : Maze) (stk : List (Int × Int)) (rs : RS),
      borderZero w h m →
      (∀ c ∈ stk, 4 ≤ c.1 ∧ c.1 ≤ (w : Int) - 5 ∧ 4 ≤ c.2 ∧ c.2 ≤ (h : Int) - 5) →
      borderZero w h (carveLoop w h fuel m stk rs).1 := by
  intro fuel
  induction fuel with
  | zero => intro m stk rs hbz _; simpa [carveLoop] using hbz
  | succ f ih =>
    intro m stk rs hbz hstk
    cases stk with
    | nil => simpa [carveLoop] using hbz
    | cons c t =>
      show borderZero w h (match findDir w h m c.1 c.2 (pyShuffle (0, 0) dirList rs).1 with
        | none => carveLoop w h f m t (pyShuffle (0, 0) dirList rs).2
        | some d => carveLoop w h f
            (writeCells w h 1 (blockWrites (c.1 + d.1) (c.2 + d.2))
              (writeCells w h 1 (corridorWrites c.1 c.2 d.1 d.2) m))
            ((c.1 + d.1, c.2 + d.2) :: c :: t) (pyShuffle (0, 0) dirList rs).2).1
      cases hfd : findDir w h m c.1 c.2 (pyShuffle (0, 0) dirList rs).1 with
      | none => exact ih m t _ hbz (fun c' hc' => hstk c' (List.mem_cons_of_mem c hc'))
      | some d =>
        obtain ⟨hdm, hg1, hg2, hg3, hg4⟩ := findDir_some w h m c.1 c.2 _ d hfd
        have hdl : ((d.1, d.2) : Int × Int) ∈ ((0, 0) : Int × Int) :: dirList :=
          pyShuffle_subset (0, 0) dirList rs d hdm
        have hcOK := hstk c (List.mem_cons_self c t)
        have hbz1 : borderZero w h (writeCells w h 1 (corridorWrites c.1 c.2 d.1 d.2) m) :=
          borderZero_writeCells w h 1 _ m
            (corridorWrites_bounds w h c.1 c.2 d.1 d.2 hdl
              ⟨hcOK.1, hcOK.2.1⟩ ⟨hcOK.2.2.1, hcOK.2.2.2⟩ ⟨hg1, hg2, hg3, hg4⟩) hbz
        have hbz2 : borderZero w h (writeCells w h 1 (blockWrites (c.1 + d.1) (c.2 + d.2))
            (writeCells w h 1 (corridorWrites c.1 c.2 d.1 d.2) m)) :=
          borderZero_writeCells w h 1 _ _
            (blockWrites_bounds w h (c.1 + d.1) (c.2 + d.2)
              ⟨by omega, by omega⟩ ⟨by omega, by omega⟩) hbz1
        refine ih _ _ _ hbz2 ?_
        intro c' hc'
        rcases List.mem_cons.mp hc' with h0 | h0
        · subst h0
          refine ⟨?_, ?_, ?_, ?_⟩
          · show 4 ≤ c.1 + d.1
            omega
          · show c.1 + d.1 ≤ (w : Int) - 5
            omega
          · show 4 ≤ c.2 + d.2
            omega
          · show c.2 + d.2 ≤ (h : Int) - 5
            omega
        · rcases List.mem_cons.mp h0 with h1 | h1
          · subst h1
            exact hcOK
          · exact hstk c' (List.mem_cons_of_mem c h1)

/-- A successful `randrange` value lies in `[start, stop)`. -/
lemma randrange_bounds (start stop step : Nat) (rs : RS) (q : Nat × RS)
    (hstep : 0 < step) (hs : randrange start stop step rs = some q) :
    start ≤ q.1 ∧ q.1 < stop := by
  simp only [randrange, RS.next] at hs
  split at hs
  · next hlt =>
    rw [Option.some_inj] at hs
    subst hs
    refine ⟨Nat.le_add_right start _, ?_⟩
    have hn : 1 ≤ (stop - start + step - 1) / step :=
      (Nat.le_div_iff_mul_le hstep).mpr (by omega)
    have hmod : rs.tape rs.pos % ((stop - start + step - 1) / step) + 1 ≤
        (stop - start + step - 1) / step :=
      Nat.mod_lt _ (by omega)
    have h1 : step * (rs.tape rs.pos % ((stop - start + step - 1) / step) + 1) ≤
        step * ((stop - start + step - 1) / step) :=
      Nat.mul_le_mul_left step hmod
    have h2 : ((stop - start + step - 1) / step) * step ≤ stop - start + step - 1 :=
      Nat.div_mul_le_self _ _
    have h3 : step * (rs.tape rs.pos % ((stop - start + step - 1) / step) + 1) =
        step * (rs.tape rs.pos % ((stop - start + step - 1) / step)) + step :=
      Nat.mul_succ step _
    have h4 : step * ((stop - start + step - 1) / step) =
        ((stop - start + step - 1) / step) * step := Nat.mul_comm _ _
    show start + step * (rs.tape rs.pos % ((stop - start + step - 1) / step)) < stop
    omega
  · simp at hs

/-- An interior `setCell` write keeps an all-wall border. -/
lemma borderZero_setCell (w h : Nat) (m : Maze) (x y v : Nat)
    (hx : 1 ≤ x ∧ x + 1 < w) (hy : 1 ≤ y ∧ y + 1 < h)
    (hbz : borderZero w h m) : borderZero w h (setCell m x y v) := by
  intro a b ha hb hborder
  rw [cellAt_setCell]
  split
  · next hc =>
    exfalso
    obtain ⟨h1, h2, _⟩ := hc
    omega
  · exact hbz a b ha hb hborder

lemma vertTry_border (w h : Nat) (m : Maze) (rs : RS) (added x y : Nat)
    (hx : 1 ≤ x ∧ x + 1 < w) (hy : 1 ≤ y ∧ y + 1 < h)
    (hbz : borderZero w h m) : borderZero w h (vertTry m rs added x y).1 := by
  unfold vertTry
  split
  · split
    · exact borderZero_setCell w h m x y 3 hx hy hbz
    · exact hbz
  · exact hbz

lemma connStep_border (w h mc : Nat) (st st' : Maze × RS × Nat)
    (hsome : connStep w h mc st = some st') (hbz : borderZero w h st.1) :
    borderZero w h st'.1 := by
  unfold connStep at hsome
  split at hsome
  · rw [Option.some_inj] at hsome
    rw [← hsome]
    exact hbz
  · cases hxr : randrange 2 (w - 2) 1 st.2.1 with
    | none => rw [hxr] at hsome; simp at hsome
    | some q1 =>
      have hxb := randrange_bounds 2 (w - 2) 1 st.2.1 q1 (by omega) hxr
      rw [hxr] at hsome
      simp only [Option.bind_eq_bind, Option.some_bind] at hsome
      cases hyr : randrange 2 (h - 2) 1 q1.2 with
      | none => rw [hyr] at hsome; simp at hsome
      | some q2 =>
        have hyb := randrange_bounds 2 (h - 2) 1 q1.2 q2 (by omega) hyr
        rw [hyr] at hsome
        simp only [Option.bind_eq_bind, Option.some_bind] at hsome
        have hxx : 1 ≤ q1.1 ∧ q1.1 + 1 < w := by omega
        have hyy : 1 ≤ q2.1 ∧ q2.1 + 1 < h := by omega
        split at hsome
        · split at hsome
          · split at hsome
            · rw [Option.some_inj] at hsome
              rw [← hsome]
              exact borderZero_setCell w h st.1 q1.1 q2.1 3 hxx hyy hbz
            · rw [Option.some_inj] at hsome
              rw [← hsome]
              exact vertTry_border w h st.1 _ st.2.2 q1.1 q2.1 hxx hyy hbz
          · rw [Option.some_inj] at hsome
            rw [← hsome]
            exact vertTry_border w h st.1 _ st.2.2 q1.1 q2.1 hxx hyy hbz
        · rw [Option.some_inj] at hsome
          rw [← hsome]
          exact hbz

lemma addConns_border (w h : Nat) (m : Maze) (rs : RS) (p : Maze × RS)
    (hsome : addConns w h m rs = some p) (hbz : borderZero w h m) :
    borderZero w h p.1 := by
  unfold addConns at hsome
  cases hf : (List.range ((randint 15 25 rs).1 * 3)).foldlM
      (fun st _ => connStep w h (randint 15 25 rs).1 st) (m, (randint 15 25 rs).2, 0) with
  | none => rw [hf] at hsome; simp at hsome
  | some st =>
    rw [hf] at hsome
    simp only [Option.bind_eq_bind, Option.some_bind, Option.some_inj] at hsome
    have hkeep := foldlM_option_pres _ (fun q : Maze × RS × Nat => borderZero w h q.1)
      (fun a c b hab ha => connStep_border w h (randint 15 25 rs).1 a b hab ha)
      (List.range ((randint 15 25 rs).1 * 3)) (m, (randint 15 25 rs).2, 0) st hf hbz
    rw [← hsome]
    exact hkeep

lemma borderZero_replicate (w h : Nat) :
    borderZero w h (List.replicate h (List.replicate w 0)) := by
  intro x z hx hz hb
  unfold cellAt
  rw [getD_replicate, if_pos hz, getD_replicate, if_pos hx]

/-- When the clipped start block fits (`startCoord + 5 ≤ dim` on both
axes), every phase of the generator writes strictly inside the border. -/
lemma generateMaze_border (w h : Nat) (rs : RS) (p : Maze × RS)
    (hw : startCoord w + 5 ≤ w) (hh : startCoord h + 5 ≤ h)
    (hsome : generateMaze w h rs = some p) : borderZero w h p.1 := by
  have hw12 : 12 ≤ startCoord w := by unfold startCoord; omega
  have hh12 : 12 ≤ startCoord h := by unfold startCoord; omega
  rw [generateMaze_eq_bind] at hsome
  cases hr : addRooms w h (carvedSkeleton w h rs).1 (carvedSkeleton w h rs).2 with
  | none => rw [hr] at hsome; simp at hsome
  | some q =>
    rw [hr] at hsome
    simp only [Option.some_bind] at hsome
    have hq : q.1 = (carvedSkeleton w h rs).1 := addRooms_unchanged w h _ _ q hr
    have hb0 : borderZero w h (carvedSkeleton w h rs).1 := by
      unfold carvedSkeleton
      apply carveLoop_border
      · apply borderZero_writeCells
        · exact blockWrites_bounds w h _ _ ⟨by omega, by omega⟩ ⟨by omega, by omega⟩
        · exact borderZero_replicate w h
      · intro c hc
        rcases List.mem_cons.mp hc with h0 | h0
        · subst h0
          refine ⟨?_, ?_, ?_, ?_⟩
          · show 4 ≤ ((startCoord w : Nat) : Int)
            omega
          · show ((startCoord w : Nat) : Int) ≤ (w : Int) - 5
            omega
          · show 4 ≤ ((startCoord h : Nat) : Int)
            omega
          · show ((startCoord h : Nat) : Int) ≤ (h : Int) - 5
            omega
        · exact absurd h0 (List.not_mem_nil c)
    exact addConns_border w h q.1 q.2 p hsome (hq ▸ hb0)

/-- C4 (amended): the generated maze keeps an all-Wall outer border
whenever the grid-aligned 7x7 start block fits inside the grid
(`startCoord + 5 ≤ dim` on both axes, true of the default 81x81 but not of
e.g. 81x27): the start block, the carve loop, the (always no-op) room
overlay and the random connections all write strictly inside the border. -/
theorem c4_border_wall_amended (w h : Nat) (rs : RS) (p : Maze × RS)
    (hw : startCoord w + 5 ≤ w) (hh : startCoord h + 5 ≤ h)
    (hgen : generateMaze w h rs = some p) :
    borderAllWall w h p.1 = true := by
  have hbz := generateMaze_border w h rs p hw hh hgen
  have hwpos : 0 < w := by unfold startCoord at hw; omega
  have hhpos : 0 < h := by unfold startCoord at hh; omega
  unfold borderAllWall
  rw [Bool.and_eq_true]
  constructor
  · rw [List.all_eq_true]
    intro x hx
    rw [List.mem_range] at hx
    simp only [Bool.and_eq_true, beq_iff_eq]
    exact ⟨hbz x 0 hx hhpos (Or.inr (Or.inr (Or.inl rfl))),
           hbz x (h - 1) hx (by omega) (Or.inr (Or.inr (Or.inr rfl)))⟩
  · rw [List.all_eq_true]
    intro z hz
    rw [List.mem_range] at hz
    simp only [Bool.and_eq_true, beq_iff_eq]
    exact ⟨hbz 0 z hwpos hz (Or.inl rfl),
           hbz (w - 1) z (by omega) hz (Or.inr (Or.inl rfl))⟩

set_option maxRecDepth 2000000 in
set_option maxHeartbeats 4000000 in
/-- Witness for the amended C4 theorem: a 39x39 run on the all-zeros tape
completes, satisfies the start-block hypotheses, and hence keeps its
border all Wall. -/
theorem c4_border_wall_amended_witness :
    (generateMaze 39 39 zRS).elim False
      (fun p => borderAllWall 39 39 p.1 = true) := by
  have hs : (generateMaze 39 39 zRS).isSome = true := by decide
  cases hg : generateMaze 39 39 zRS with
  | none => rw [hg] at hs; simp at hs
  | some p => exact c4_border_wall_amended 39 39 zRS p (by decide) (by decide) hg
